import Mathlib

set_option maxRecDepth 8192

/-!
Verification of the core subsystems of the `camunda8-js-sdk-esm` repository:
the lossless JSON codec (`source/c8-rest/lib/lossless-json.ts`), the TC39
field-metadata registry (`tc39-metadata-utils.ts`), the memoized specialized
class factories (`rest-api-job-class-factory.ts`,
`rest-api-process-instance-class-factory.ts`), the OAuth token provider
(`oauth-provider.ts`) and the polling job worker (`camunda-job-worker.ts`).

The embedding works on abstract syntax trees rather than character streams:
the external `lossless-json` library's `parse`/`stringify` pair is an exact,
information-preserving translation between JSON text and a value tree in
which every numeric literal is kept as a `LosslessNumber`, so we model wire
documents directly as such trees (`Json` below).  Numeric literals are
modelled as exact integers: the wire format under verification uses int64
entity keys, and no behaviour relevant to the codec's field directives
depends on non-integer literals.
-/

/-- A parsed JSON document as produced by the external lossless-json `parse`:
every numeric literal appears as an exact `LosslessNumber` (constructor
`num`, carrying the exact integer value of the literal). Object fields keep
their textual order; keys are unique in a parsed document. -/
inductive Json where
  | null
  | bool (b : Bool)
  | str (s : String)
  | num (n : Int)
  | arr (elems : List Json)
  | obj (fields : List (String × Json))
deriving Repr

/-- A field directive registered in the TC39 field-metadata registry
(`tc39-metadata-utils.ts` / the decorators of `lossless-json.ts`):
`int64String` = `@Int64String` (`type:int64`), `int64StringArray` =
`@Int64StringArray` (`type:int64[]`), `bigintValue` = `@BigIntValue`
(`type:bigint`), `bigintValueArray` = `@BigIntValueArray` (`type:bigint[]`),
`childDto` = `@ChildDto(class)` (`child:class`), carrying the child class's
own registered metadata. -/
inductive Directive where
  | int64String
  | int64StringArray
  | bigintValue
  | bigintValueArray
  | childDto (childMeta : List (String × Directive))
deriving Repr

/-- The metadata of a Dto class: the mapping from field name to registered
directive.  A field with no entry has no directive (the spec's
`PlainNumber`). The base class `LosslessDto` is the empty mapping `[]`. -/
abbrev DtoClass := List (String × Directive)

/-- Models `getMetadata(dto, key).type` of `tc39-metadata-utils.ts`: look the
field up in the class's `Symbol.metadata` record; absent fields yield the
empty metadata (no directive). -/
def getMetadata (dto : DtoClass) (key : String) : Option Directive :=
  (dto.find? (fun e => e.1 == key)).map (fun e => e.2)

/-- A runtime JavaScript value in the codec's domain: the result of a parse
(and the input of `losslessStringify`).  `num` is a native JS number,
`lossless` a `LosslessNumber` instance (an object wrapping the exact
literal), `bigint` a JS bigint.  `obj` carries the `Option DtoClass` of the
class the object is an instance of (`none` for a plain object literal): this
is exactly the information `getMetadata(obj, key)` recovers from the
instance's constructor at runtime. -/
inductive JsValue where
  | null
  | bool (b : Bool)
  | str (s : String)
  | num (n : Int)
  | lossless (n : Int)
  | bigint (n : Int)
  | arr (elems : List JsValue)
  | obj (dtoMeta : Option DtoClass) (fields : List (String × JsValue))
deriving Repr

/-- JavaScript truthiness of a parsed JSON value (used by
`if (parsedLossless[keyToParse])` and the `if (value)` guards):
`null`, `false` and the empty string are falsy; numbers are
`LosslessNumber` instances, hence objects, hence always truthy. -/
def Json.truthy : Json → Bool
  | .null => false
  | .bool b => b
  | .str s => !(s == "")
  | .num _ => true
  | .arr _ => true
  | .obj _ => true

/-- JavaScript `typeof` of a parsed JSON value (numbers are `LosslessNumber`
instances, so their `typeof` is `"object"`; `typeof null` is `"object"`). -/
def Json.jsTypeof : Json → String
  | .null => "object"
  | .bool _ => "boolean"
  | .str _ => "string"
  | .num _ => "object"
  | .arr _ => "object"
  | .obj _ => "object"

/-- The type name used by the error branches of `parseWithAnnotations` that
compute `value instanceof LosslessNumber ? "number" : typeof value`. -/
def Json.reportedType : Json → String
  | .num _ => "number"
  | j => j.jsTypeof

/-- JavaScript property lookup `fields[key]` on a parsed JSON object (keys of
a parsed document are unique, so first match suffices). -/
def jsGet (fields : List (String × Json)) (key : String) : Option Json :=
  (fields.find? (fun e => e.1 == key)).map (fun e => e.2)

/-- Errors raised by the codec. `shapeMismatch` models the `Error` thrown by
`losslessParse` when `keyToParse` is not found, carrying the key and the full
parsed envelope that the message reports.  `typeMismatch` models the
`Unexpected type:` errors of `parseWithAnnotations`, carrying the exact
message text.  `unsafeNumber` models the error chain built by
`convertLosslessNumbersToNumberOrThrow`: the path of `currentKey` values
named by the nested `An unsafe number value was received for "..."` wrappers,
plus the exact literal text reported by the library's
`toSafeNumberOrThrow`. -/
inductive ParseError where
  | shapeMismatch (key : String) (envelope : Json)
  | typeMismatch (message : String)
  | unsafeNumber (path : List String) (literal : String)
deriving Repr

/-- Whether an error is the `shapeMismatch` kind (only ever thrown by the
`keyToParse` branch of `losslessParse`). -/
def ParseError.isShapeMismatch : ParseError → Bool
  | .shapeMismatch _ _ => true
  | _ => false

/-- The odd part of a natural number, by repeated halving with explicit fuel
(structural recursion so that the kernel can evaluate it on literals). -/
def oddPartAux : Nat → Nat → Nat
  | 0, m => m
  | fuel + 1, m => if m % 2 == 0 && m != 0 then oddPartAux fuel (m / 2) else m

/-- The odd part of a natural number. 1100 halvings cover every number below
`2 ^ 1100`, which is beyond the float64 range checked below. -/
def oddPart (m : Nat) : Nat := oddPartAux 1100 m

/-- Modelled from the spec (external collaborator): the external
lossless-json library's safety test for coercing a numeric literal to a
native JS number — the spec states a lossless number "is coerced to the
native numeric type if and only if the value is exactly representable".  An
integer is exactly representable as a float64 iff its magnitude is below
`2 ^ 1024` and its odd part fits in the 53-bit significand. -/
def isSafeInteger (n : Int) : Bool :=
  n.natAbs < 2 ^ 1024 && oddPart n.natAbs < 2 ^ 53

/-- Models the external lossless-json `toSafeNumberOrThrow` applied to a
`LosslessNumber` carrying `n`: the native number on success, an error naming
the original literal text otherwise (the path is added by the callers'
`currentKey` wrappers). -/
def toSafeNumberOrThrow (n : Int) : Except ParseError JsValue :=
  if isSafeInteger n then .ok (.num n) else .error (.unsafeNumber [] (toString n))

mutual
/-- Injection of a parsed JSON tree into the runtime value domain: numeric
literals are `LosslessNumber` instances, objects are plain (no class). -/
def Json.toJs : Json → JsValue
  | .null => .null
  | .bool b => .bool b
  | .str s => .str s
  | .num n => .lossless n
  | .arr xs => .arr (Json.toJsList xs)
  | .obj fs => .obj none (Json.toJsFields fs)

/-- Elementwise `Json.toJs` on array elements. -/
def Json.toJsList : List Json → List JsValue
  | [] => []
  | x :: xs => Json.toJs x :: Json.toJsList xs

/-- Fieldwise `Json.toJs` on object fields. -/
def Json.toJsFields : List (String × Json) → List (String × JsValue)
  | [] => []
  | (k, v) :: fs => (k, Json.toJs v) :: Json.toJsFields fs
end

/-- Extends the `currentKey` wrapper of
`convertLosslessNumbersToNumberOrThrow` around an error escaping the
processing of one key: the catch block rethrows with
`An unsafe number value was received for "<key>"` prefixed to the inner
message, which we model by consing the key onto the error's path. -/
def wrapUnsafe (key : String) : Except ParseError JsValue → Except ParseError JsValue
  | .error (.unsafeNumber path lit) => .error (.unsafeNumber (key :: path) lit)
  | r => r

mutual
/-- Models `convertLosslessNumbersToNumberOrThrow` of `lossless-json.ts`:
falsy and scalar values are returned unchanged, a bare `LosslessNumber` is
converted by `toSafeNumberOrThrow` (throwing the library error with no key
wrapper), and containers are traversed key by key with the `currentKey`
wrapper applied to errors (arrays iterate their indices as keys). -/
def convertLosslessNumbersToNumberOrThrow : JsValue → Except ParseError JsValue
  | .lossless n => toSafeNumberOrThrow n
  | .arr xs => (convertIndexedElems 0 xs).map .arr
  | .obj m fs => (convertObjectFields fs).map (.obj m)
  | v => .ok v

/-- Array traversal of `convertLosslessNumbersToNumberOrThrow`: each index is
a key of the array object, so errors are wrapped with the index text. -/
def convertIndexedElems (i : Nat) : List JsValue → Except ParseError (List JsValue)
  | [] => .ok []
  | v :: vs => do
    let v' ← wrapUnsafe (toString i) (convertValueAtKey v)
    let vs' ← convertIndexedElems (i + 1) vs
    return v' :: vs'

/-- Object traversal of `convertLosslessNumbersToNumberOrThrow`: each field is
processed with its key recorded as `currentKey` for error wrapping. -/
def convertObjectFields : List (String × JsValue) → Except ParseError (List (String × JsValue))
  | [] => .ok []
  | (k, v) :: fs => do
    let v' ← wrapUnsafe k (convertValueAtKey v)
    let fs' ← convertObjectFields fs
    return (k, v') :: fs'

/-- The per-key dispatch inside the `Object.keys(obj).forEach` loop of
`convertLosslessNumbersToNumberOrThrow`: an array value has each element
converted recursively; a `LosslessNumber` value is converted; a non-null
object value is recursed into; anything else is left untouched. -/
def convertValueAtKey : JsValue → Except ParseError JsValue
  | .arr ys => (convertFullList ys).map .arr
  | .lossless n => toSafeNumberOrThrow n
  | .obj m fs => (convertObjectFields fs).map (.obj m)
  | v => .ok v

/-- The elementwise `convert(item)` recursion over the elements of an array
found under a key (each element goes through the full function again). -/
def convertFullList : List JsValue → Except ParseError (List JsValue)
  | [] => .ok []
  | v :: vs => do
    let v' ← convertLosslessNumbersToNumberOrThrow v
    let vs' ← convertFullList vs
    return v' :: vs'
end

/-- Per-element conversion of an `@Int64StringArray` field
(`parseWithAnnotations`, `MetadataKey.INT64_STRING_ARRAY` branch): every
element must be a `LosslessNumber` and becomes its exact decimal string. -/
def int64StringArrayElems (key : String) : List Json → Except ParseError (List JsValue)
  | [] => .ok []
  | .num n :: xs => do return .str (toString n) :: (← int64StringArrayElems key xs)
  | x :: _ =>
    .error (.typeMismatch ("Unexpected type: Received JSON " ++ x.jsTypeof ++
      " value for Int64String Dto field \"" ++ key ++ "\", expected number"))

/-- Per-element conversion of a `@BigIntValueArray` field
(`parseWithAnnotations`, `MetadataKey.INT64_BIGINT_ARRAY` branch): every
element must be a `LosslessNumber` and becomes a bigint. -/
def bigintValueArrayElems (key : String) : List Json → Except ParseError (List JsValue)
  | [] => .ok []
  | .num n :: xs => do return .bigint n :: (← bigintValueArrayElems key xs)
  | x :: _ =>
    .error (.typeMismatch ("Unexpected type: Received JSON " ++ x.jsTypeof ++
      " value for BigIntValue in Dto field \"" ++ key ++ "[]\", expected number"))

mutual
/-- Models `losslessParse(json, dto)` of `lossless-json.ts` after the
`keyToParse` dispatch (every internal recursion of the source calls
`losslessParse` without a key, via an exact stringify/parse round trip that
is the identity on the tree): an array is parsed elementwise with
`dto ?? LosslessDto`; with no Dto the parsed tree is converted directly;
with a Dto an instance is built by `parseWithAnnotations` and the remaining
lossless numbers are then converted.  A scalar paired with a Dto would make
the source iterate `Object.entries` of the scalar (for `null` it would even
raise a `TypeError`); no SDK call site reaches that corner and it is
modelled as the instance with no fields assigned. -/
def losslessParseCore : Json → Option DtoClass → Except ParseError JsValue
  | .arr xs, dto => (parseArrayWithAnnotations xs (dto.getD [])).map .arr
  | j, none => convertLosslessNumbersToNumberOrThrow j.toJs
  | .obj fs, some d => do
    let fields ← parseWithAnnotations fs d
    convertLosslessNumbersToNumberOrThrow (.obj (some d) fields)
  | _, some d => convertLosslessNumbersToNumberOrThrow (.obj (some d) [])

/-- Models `parseArrayWithAnnotations`: each element of the array is parsed
by the full `losslessParse` with the given Dto class. -/
def parseArrayWithAnnotations : List Json → DtoClass → Except ParseError (List JsValue)
  | [], _ => .ok []
  | x :: xs, d => do return (← losslessParseCore x (some d)) :: (← parseArrayWithAnnotations xs d)

/-- Models `parseWithAnnotations`: iterate `Object.entries` of the parsed
object in order, consulting the field-metadata registry for each key.
`@ChildDto` recurses with the child class (elementwise on arrays);
`@Int64String` and `@BigIntValue` require a `LosslessNumber` (throwing
`Unexpected type` otherwise) but silently skip falsy values (`if (value)`);
the array directives require an array; fields with no directive are assigned
unchanged. -/
def parseWithAnnotations : List (String × Json) → DtoClass → Except ParseError (List (String × JsValue))
  | [], _ => .ok []
  | (key, value) :: rest, d =>
    match getMetadata d key with
    | some (.childDto child) =>
      match value with
      | .arr xs => do
        let vs ← parseArrayWithAnnotations xs child
        return (key, .arr vs) :: (← parseWithAnnotations rest d)
      | v => do
        return (key, ← losslessParseCore v (some child)) :: (← parseWithAnnotations rest d)
    | some .int64StringArray =>
      match value with
      | .arr xs => do
        let vs ← int64StringArrayElems key xs
        return (key, .arr vs) :: (← parseWithAnnotations rest d)
      | v =>
        .error (.typeMismatch ("Unexpected type: Received JSON " ++ v.reportedType ++
          " value for Int64StringArray Dto field \"" ++ key ++ "\", expected Array"))
    | some .int64String =>
      if value.truthy then
        match value with
        | .num n => do return (key, .str (toString n)) :: (← parseWithAnnotations rest d)
        | .arr _ =>
          .error (.typeMismatch ("Unexpected type: Received JSON array value for Int64String Dto field \"" ++
            key ++ "\", expected number. If you are expecting an array, use the @Int64StringArray decorator."))
        | v =>
          .error (.typeMismatch ("Unexpected type: Received JSON " ++ v.reportedType ++
            " value for Int64String Dto field \"" ++ key ++ "\", expected number"))
      else parseWithAnnotations rest d
    | some .bigintValueArray =>
      match value with
      | .arr xs => do
        let vs ← bigintValueArrayElems key xs
        return (key, .arr vs) :: (← parseWithAnnotations rest d)
      | v =>
        .error (.typeMismatch ("Unexpected type: Received JSON " ++ v.reportedType ++
          " value for BigIntValueArray Dto field \"" ++ key ++ "\", expected Array"))
    | some .bigintValue =>
      if value.truthy then
        match value with
        | .num n => do return (key, .bigint n) :: (← parseWithAnnotations rest d)
        | .arr _ =>
          .error (.typeMismatch ("Unexpected type: Received JSON array value for BigIntValue Dto field \"" ++
            key ++ "\", expected number. If you are expecting an array, use the @BigIntValueArray decorator."))
        | v =>
          .error (.typeMismatch ("Unexpected type: Received JSON " ++ v.jsTypeof ++
            " value for BigIntValue Dto field \"" ++ key ++ "\", expected number"))
      else parseWithAnnotations rest d
    | none => do return (key, value.toJs) :: (← parseWithAnnotations rest d)
end

/-- Models the public `losslessParse(json, dto?, keyToParse?)`.  With a
`keyToParse`, the source tests `if (parsedLossless[keyToParse])` — JavaScript
truthiness, not key presence — recursing into the located value on success
and otherwise throwing the error reporting the key and the whole parsed
envelope (`ShapeMismatch`). -/
def losslessParse (j : Json) (dto : Option DtoClass) (keyToParse : Option String) :
    Except ParseError JsValue :=
  match keyToParse with
  | none => losslessParseCore j dto
  | some k =>
    match j with
    | .obj fs =>
      match jsGet fs k with
      | some v => if v.truthy then losslessParseCore v dto else .error (.shapeMismatch k (.obj fs))
      | none => .error (.shapeMismatch k (.obj fs))
    | other => .error (.shapeMismatch k other)

/-- Errors raised by `losslessStringify`. `invalidLosslessNumber` models the
`Invalid number` error of the external `LosslessNumber` constructor when a
directive re-wraps a value whose text is not a numeric literal;
`unsupportedValue` marks the two corners the embedding does not follow into:
a raw `LosslessNumber` instance nested in the value (the source would
blindly recurse into the library object's own properties) and
`null.toString()` (a `TypeError` in the source). -/
inductive SerError where
  | invalidLosslessNumber (value : String)
  | unsupportedValue (description : String)
deriving Repr

/-- The numeric value of one decimal digit character, if any. -/
def digitVal (c : Char) : Option Nat :=
  if 48 ≤ c.toNat && c.toNat ≤ 57 then some (c.toNat - 48) else none

/-- Left fold of decimal digits into a natural number; fails on the first
non-digit character. -/
def parseDigitsAux : List Char → Nat → Option Nat
  | [], acc => some acc
  | c :: cs, acc =>
    match digitVal c with
    | some d => parseDigitsAux cs (acc * 10 + d)
    | none => none

/-- A non-empty all-digit character list as a natural number. -/
def parseNatLit : List Char → Option Nat
  | [] => none
  | cs => parseDigitsAux cs 0

/-- The integer denoted by a decimal integer literal (an optional leading
minus sign followed by at least one digit), and `none` otherwise.  This is
the external `LosslessNumber` constructor's validity test, restricted to
integer literals (see the `Json.num` modelling note). -/
def parseIntLit (s : String) : Option Int :=
  match s.data with
  | [] => none
  | '-' :: cs => (parseNatLit cs).map (fun n => -(n : Int))
  | cs => (parseNatLit cs).map (fun n => (n : Int))

/-- Whether `s` is the canonical decimal spelling of the integer it denotes
(so that printing the parsed value reproduces `s` exactly). -/
def isCanonicalIntLit (s : String) : Bool :=
  match parseIntLit s with
  | some n => toString n == s
  | none => false

/-- The wire form of a scalar runtime value assigned into the output object
with no directive: the final lossless-json `stringify` emits native numbers,
bigints and `LosslessNumber` instances as bare numeric literals. -/
def stringifyLeaf : JsValue → Json
  | .null => .null
  | .bool b => .bool b
  | .str s => .str s
  | .num n => .num n
  | .bigint n => .num n
  | .lossless n => .num n
  | .arr _ => .null
  | .obj _ _ => .null

/-- The `new LosslessNumber(value)` re-wrap of the `@Int64String` branch of
`losslessStringify`: the constructor validates the value's text against the
numeric-literal test and the emitted wire form is the bare literal. -/
def losslessNumberOfValue : JsValue → Except SerError Json
  | .str s =>
    match parseIntLit s with
    | some n => .ok (.num n)
    | none => .error (.invalidLosslessNumber s)
  | .num n => .ok (.num n)
  | .bigint n => .ok (.num n)
  | .bool b => .error (.invalidLosslessNumber (if b then "true" else "false"))
  | .null => .error (.invalidLosslessNumber "null")
  | .lossless _ => .error (.unsupportedValue "LosslessNumber instance")
  | .arr _ => .error (.unsupportedValue "array")
  | .obj _ _ => .error (.unsupportedValue "object")

/-- The `new LosslessNumber(value.toString())` re-wrap of the `@BigIntValue`
branch of `losslessStringify`: `toString` of a bigint or number is always a
canonical numeric literal; a string passes through the same validity test;
`null` has no `toString` (a `TypeError` in the source). -/
def losslessNumberOfToString : JsValue → Except SerError Json
  | .bigint n => .ok (.num n)
  | .num n => .ok (.num n)
  | .str s =>
    match parseIntLit s with
    | some n => .ok (.num n)
    | none => .error (.invalidLosslessNumber s)
  | .bool b => .error (.invalidLosslessNumber (if b then "true" else "false"))
  | .null => .error (.unsupportedValue "null has no toString")
  | .lossless _ => .error (.unsupportedValue "LosslessNumber instance")
  | .arr _ => .error (.unsupportedValue "array")
  | .obj _ _ => .error (.unsupportedValue "object")

mutual
/-- Models `losslessStringify` of `lossless-json.ts` (the wire document the
final lossless-json `stringify` emits).  Every key of the object is visited
in order: object and array values are recursed into structurally before any
directive is consulted; otherwise an `@Int64String` value is re-wrapped
`new LosslessNumber(value)` and a `@BigIntValue` value is re-wrapped
`new LosslessNumber(value.toString())`, making the wire form a bare numeric
literal; everything else is assigned unchanged.  Only instances and plain
objects and arrays reach the SDK's call sites at top level; a top-level
scalar is modelled as its leaf emission.  Date, Map and Set values (rejected
outright by the source) have no counterpart in `JsValue`. -/
def losslessStringify : JsValue → Except SerError Json
  | .obj m fs => (stringifyFields m fs).map .obj
  | .arr xs => (stringifyElems xs).map .arr
  | v => .ok (stringifyLeaf v)

/-- Field traversal of `losslessStringify`: the directive for each key is
read off the instance's class metadata (`getMetadata(obj, key)`); plain
objects have no metadata. -/
def stringifyFields (m : Option DtoClass) : List (String × JsValue) → Except SerError (List (String × Json))
  | [] => .ok []
  | (k, v) :: fs => do
    let v' ← stringifyFieldValue (m.bind (fun d => getMetadata d k)) v
    let fs' ← stringifyFields m fs
    return (k, v') :: fs'

/-- Array traversal of `losslessStringify`: an array's own constructor
carries no metadata, so elements are serialized with no directive. -/
def stringifyElems : List JsValue → Except SerError (List Json)
  | [] => .ok []
  | v :: vs => do
    let v' ← stringifyFieldValue none v
    let vs' ← stringifyElems vs
    return v' :: vs'

/-- Serialization of one value under an optional directive, mirroring the
branch order of the source: the `typeof value === "object"` recursion first
(so array-directive fields are recursed structurally, with string elements
staying quoted strings on the wire), then the `@Int64String` and
`@BigIntValue` re-wraps, then plain assignment. -/
def stringifyFieldValue (d : Option Directive) : JsValue → Except SerError Json
  | .obj m fs => (stringifyFields m fs).map .obj
  | .arr xs => (stringifyElems xs).map .arr
  | .lossless _ => .error (.unsupportedValue "LosslessNumber instance")
  | v =>
    match d with
    | some .int64String => losslessNumberOfValue v
    | some .bigintValue => losslessNumberOfToString v
    | _ => .ok (stringifyLeaf v)
end

/-!
Job worker (`camunda-job-worker.ts`).  The worker's observable counter
behaviour is driven by four kinds of asynchronous events on the event loop:
a poll tick (`poll()` runs its synchronous body: capacity check and, below
capacity, issuing an `activateJobs` request for the remaining capacity), the
resolution or rejection of an in-flight activation request (the `.then`
increments `currentlyActiveJobCount` by the number of jobs returned and
dispatches the handlers; the `.catch` leaves the count unchanged), and the
completion of one `handleJob` invocation (whose `finally` decrements the
count once).  `unsettledJobs` tracks the number of dispatched jobs whose
`handleJob` has not yet reached its `finally`; a `handlerSettled` event is
only possible while such a job exists, because each activated job is
dispatched to exactly one `handleJob` whose `finally` runs exactly once.
-/

/-- The worker state between event-loop steps.  `currentlyActiveJobCount`
is the public counter of the source; `pendingActivations` holds the
`maxJobsToActivate` argument of each in-flight `activateJobs` request. -/
structure WorkerState where
  currentlyActiveJobCount : Int
  unsettledJobs : Nat
  pendingActivations : List Nat
deriving Repr, DecidableEq

/-- The initial state: a freshly constructed worker. -/
def initialWorkerState : WorkerState :=
  { currentlyActiveJobCount := 0, unsettledJobs := 0, pendingActivations := [] }

/-- One event-loop event observable by the worker. -/
inductive WorkerEvent where
  | pollTick
  | activationSuccess (requestIndex : Nat) (jobsReturned : Nat)
  | activationFailure (requestIndex : Nat)
  | handlerSettled
deriving Repr, DecidableEq

/-- One step of the worker, from `poll()` and `handleJob()` of
`camunda-job-worker.ts`.  A poll at or above capacity issues no request; a
poll below capacity issues an activation request for
`maxJobsToActivate - currentlyActiveJobCount`.  An activation success for
in-flight request `i` increments the count by the number of jobs returned
(the endpoint returns at most the requested number; a response exceeding it,
or naming no in-flight request, is not a possible event, `none`).  An
activation failure only clears the request.  A handler settlement decrements
the count once and is only possible while a dispatched job is unsettled. -/
def workerStep (maxJobsToActivate : Nat) (s : WorkerState) : WorkerEvent → Option WorkerState
  | .pollTick =>
    if s.currentlyActiveJobCount ≥ (maxJobsToActivate : Int) then some s
    else some { s with pendingActivations :=
      s.pendingActivations ++ [((maxJobsToActivate : Int) - s.currentlyActiveJobCount).toNat] }
  | .activationSuccess i k =>
    match s.pendingActivations.get? i with
    | some requested =>
      if k ≤ requested then
        some { currentlyActiveJobCount := s.currentlyActiveJobCount + k,
               unsettledJobs := s.unsettledJobs + k,
               pendingActivations := s.pendingActivations.eraseIdx i }
      else none
    | none => none
  | .activationFailure i =>
    match s.pendingActivations.get? i with
    | some _ => some { s with pendingActivations := s.pendingActivations.eraseIdx i }
    | none => none
  | .handlerSettled =>
    if s.unsettledJobs = 0 then none
    else some { s with currentlyActiveJobCount := s.currentlyActiveJobCount - 1,
                       unsettledJobs := s.unsettledJobs - 1 }

/-- Run the worker over a sequence of events. -/
def runWorker (maxJobsToActivate : Nat) (s : WorkerState) : List WorkerEvent → Option WorkerState
  | [] => some s
  | e :: evs =>
    match workerStep maxJobsToActivate s e with
    | none => none
    | some s' => runWorker maxJobsToActivate s' evs

/-- Checks that along the whole event sequence at most one activation
request is ever in flight, i.e. every activation response or failure arrives
before the next poll tick issues a new request. -/
def atMostOneInflightActivation (maxJobsToActivate : Nat) (s : WorkerState) : List WorkerEvent → Bool
  | [] => decide (s.pendingActivations.length ≤ 1)
  | e :: evs =>
    decide (s.pendingActivations.length ≤ 1) &&
      (match workerStep maxJobsToActivate s e with
       | none => true
       | some s' => atMostOneInflightActivation maxJobsToActivate s' evs)

/-- The outcome of the caller-supplied job handler as observed by
`handleJob`: either its returned operation resolves, or it throws or rejects
with an error whose `toString()` is the given text. -/
inductive HandlerOutcome where
  | success
  | throws (stringifiedError : String)
deriving Repr, DecidableEq

/-- The outcome of the `job.fail(...)` call issued on the caller's behalf. -/
inductive FailJobOutcome where
  | resolves
  | rejects (stringifiedError : String)
deriving Repr, DecidableEq

/-- The externally observable actions of one `handleJob` invocation. -/
inductive WorkerAction where
  | invokeJobHandler
  | logHandlerFailure
  | callJobFail (errorMessage : String) (retries : Int)
  | decrementActiveJobCount
deriving Repr, DecidableEq

/-- Models `handleJob` of `camunda-job-worker.ts` as the sequence of actions
it performs, plus the error (if any) escaping the invocation: the handler is
awaited inside `try`; on an exception the failure is logged and
`job.fail({errorMessage: error.toString(), retries: job.retries - 1})` is
awaited; the `finally` decrements `currentlyActiveJobCount` in all cases, as
the final action; an exception from the fail call itself escapes after the
`finally` has run (into a floating promise). -/
def CamundaJobWorker.handleJob (jobRetries : Int) (handlerResult : HandlerOutcome)
    (failResult : FailJobOutcome) : List WorkerAction × Option String :=
  match handlerResult with
  | .success => ([.invokeJobHandler, .decrementActiveJobCount], none)
  | .throws e =>
    match failResult with
    | .resolves =>
      ([.invokeJobHandler, .logHandlerFailure, .callJobFail e (jobRetries - 1),
        .decrementActiveJobCount], none)
    | .rejects f =>
      ([.invokeJobHandler, .logHandlerFailure, .callJobFail e (jobRetries - 1),
        .decrementActiveJobCount], some f)

/-- Whether an action is a `job.fail` call. -/
def WorkerAction.isFailCall : WorkerAction → Bool
  | .callJobFail _ _ => true
  | _ => false

/-!
OAuth token provider (`oauth-provider.ts`).  The provider's token-management
behaviour is a state machine over its in-memory token cache, the optional
persistent cache, and the single `inflightTokenRequest` promise.  The
in-memory cache is a `Map` keyed by `` `${this.clientId}-${audience}` ``;
since `this.clientId` is one fixed string per provider instance, the key is
determined by the audience and the map is modelled as a function from
audience to optional token.  The persistent cache is keyed by
`` `${clientIdToUse}-${audienceType}` `` and modelled as a function from the
pair.  Concurrent `getToken` callers that find the in-flight promise set
receive that same promise; a settlement event resolves or rejects everyone
awaiting it and clears the gate unconditionally.
-/

/-- The audiences of `oauth-types.ts`. -/
inductive TokenGrantAudienceType where
  | OPERATE
  | ZEEBE
  | OPTIMIZE
  | TASKLIST
  | CONSOLE
  | MODELER
deriving Repr, DecidableEq

/-- A cached OAuth token (`oauth-types.ts`; the passthrough fields `scope`,
`expires_in` and `token_type` play no role in any contract and are
omitted).  `expiry` is seconds since the Unix epoch, decoded from the JWT
`exp` claim. -/
structure Token where
  access_token : String
  expiry : Int
  audience : TokenGrantAudienceType
deriving Repr, DecidableEq

/-- Models the static `OAuthProvider.isTokenExpired`: the current time in
milliseconds is compared against the expiry (seconds) scaled to
milliseconds, less the refresh window. -/
def OAuthProvider.isTokenExpired (token : Token) (refreshWindow : Int) (currentTime : Int) : Bool :=
  currentTime ≥ token.expiry * 1000 - refreshWindow

/-- The provider's configuration, as resolved by the environment
configurator (`get-configuration.ts`).  `camundaModelerOauthAudience` has no
default (`CAMUNDA_MODELER_OAUTH_AUDIENCE` is optional); the other audience
values all have environment defaults (the console audience defaults to
`api.cloud.camunda.io`), so they are plain strings.  The credential pair
selection only needs the two client ids; both are modelled as configured. -/
structure OAuthProviderConfig where
  isCamundaSaaS : Bool
  clientId : String
  consoleClientId : String
  camundaModelerOauthAudience : Option String
  consoleAudience : String
  zeebeAudience : String
  operateAudience : String
  optimizeAudience : String
  tasklistAudience : String
  scope : Option String
  refreshWindow : Int

/-- Models the private `getAudience`: the per-audience configured string
from the `audienceMap` built in the constructor.  The `MODELER` entry is the
optional `CAMUNDA_MODELER_OAUTH_AUDIENCE` under a TypeScript non-null
assertion; the branch structure of `addAudienceIfNeeded` keeps the absent
case unreachable. -/
def OAuthProvider.getAudience (cfg : OAuthProviderConfig) : TokenGrantAudienceType → String
  | .OPERATE => cfg.operateAudience
  | .ZEEBE => cfg.zeebeAudience
  | .OPTIMIZE => cfg.optimizeAudience
  | .TASKLIST => cfg.tasklistAudience
  | .CONSOLE => cfg.consoleAudience
  | .MODELER => (cfg.camundaModelerOauthAudience).getD "undefined"

/-- Models the private `addAudienceIfNeeded`: the audience fragment
prepended to the token-request body.  Only a Modeler request on Self-Managed
with no configured Modeler audience omits the parameter; a Modeler request
on Camunda SaaS always uses the fixed `api.cloud.camunda.io`; every other
audience uses its configured string. -/
def OAuthProvider.addAudienceIfNeeded (cfg : OAuthProviderConfig)
    (audienceType : TokenGrantAudienceType) : String :=
  if audienceType = .MODELER && !cfg.isCamundaSaaS && cfg.camundaModelerOauthAudience.isNone then
    ""
  else if audienceType = .MODELER && cfg.isCamundaSaaS then
    "audience=api.cloud.camunda.io&"
  else
    "audience=" ++ OAuthProvider.getAudience cfg audienceType ++ "&"

/-- Models the body construction of `makeDebouncedTokenRequest` (credentials
are modelled as already URL-safe; `encodeURIComponent` is the identity on
such strings). -/
def OAuthProvider.tokenRequestBody (cfg : OAuthProviderConfig)
    (audienceType : TokenGrantAudienceType) (clientIdToUse clientSecretToUse : String) : String :=
  let body := OAuthProvider.addAudienceIfNeeded cfg audienceType ++
    "client_id=" ++ clientIdToUse ++ "&client_secret=" ++ clientSecretToUse ++
    "&grant_type=client_credentials"
  match cfg.scope with
  | some s => body ++ "&scope=" ++ s
  | none => body

/-- Models the credential selection at the top of `getToken`: the console
credential set is used exactly when the provider talks to the SaaS OAuth
endpoint and the audience is `CONSOLE` or `MODELER`. -/
def OAuthProvider.selectedClientId (cfg : OAuthProviderConfig)
    (audienceType : TokenGrantAudienceType) : String :=
  if cfg.isCamundaSaaS && (audienceType = .CONSOLE || audienceType = .MODELER) then
    cfg.consoleClientId
  else cfg.clientId

/-- The provider's mutable state.  `inflightTokenRequest` holds the id of
the shared pending promise, if any; `inflightAudience` records which
audience's `getToken` call created it (this determines the body of the
network request and the audience under which the response is cached).
`networkRequests` counts the token-endpoint requests issued. -/
structure OAuthProviderState where
  tokenCache : TokenGrantAudienceType → Option Token
  persistentCache : Option ((String × TokenGrantAudienceType) → Option Token)
  inflightTokenRequest : Option Nat
  inflightAudience : Option TokenGrantAudienceType
  failed : Bool
  failureCount : Nat
  networkRequests : Nat
  nextRequestId : Nat

/-- The outcome of one `getToken` call: an immediate resolution from one of
the caches, or the shared in-flight request the caller now awaits. -/
inductive GetTokenOutcome where
  | fromMemoryCache (accessToken : String)
  | fromPersistentCache (accessToken : String)
  | awaitingRequest (requestId : Nat)
deriving Repr, DecidableEq

/-- The tail of `getToken`: `this.inflightTokenRequest ||= new Promise(...)`.
An existing in-flight request is joined with no other effect; otherwise a
new request is created (scheduling one network call, after the linear
backoff delay when the previous attempt failed) and the gate is set. -/
def OAuthProvider.joinOrCreateInflight (st : OAuthProviderState)
    (audienceType : TokenGrantAudienceType) : GetTokenOutcome × OAuthProviderState :=
  match st.inflightTokenRequest with
  | some r => (.awaitingRequest r, st)
  | none =>
    (.awaitingRequest st.nextRequestId,
     { st with inflightTokenRequest := some st.nextRequestId,
               inflightAudience := some audienceType,
               networkRequests := st.networkRequests + 1,
               nextRequestId := st.nextRequestId + 1 })

/-- The persistent-cache step of `getToken`: with a configured store, a hit
is returned when not expired and evicted when expired; otherwise fall
through to the in-flight gate. -/
def OAuthProvider.getTokenPersistentStep (cfg : OAuthProviderConfig) (currentTime : Int)
    (st : OAuthProviderState) (audienceType : TokenGrantAudienceType) :
    GetTokenOutcome × OAuthProviderState :=
  match st.persistentCache with
  | none => OAuthProvider.joinOrCreateInflight st audienceType
  | some store =>
    let key := (OAuthProvider.selectedClientId cfg audienceType, audienceType)
    match store key with
    | some token =>
      if OAuthProvider.isTokenExpired token cfg.refreshWindow currentTime then
        OAuthProvider.joinOrCreateInflight
          { st with persistentCache := some (fun k => if k = key then none else store k) }
          audienceType
      else (.fromPersistentCache token.access_token, st)
    | none => OAuthProvider.joinOrCreateInflight st audienceType

/-- Models `getToken(audienceType)` of `oauth-provider.ts` up to its
settlement: the in-memory cache is consulted first (expired entries are
evicted, valid entries resolve immediately with no network call), then the
persistent cache, then the caller joins or creates the single in-flight
token request. -/
def OAuthProvider.getToken (cfg : OAuthProviderConfig) (currentTime : Int)
    (st : OAuthProviderState) (audienceType : TokenGrantAudienceType) :
    GetTokenOutcome × OAuthProviderState :=
  match st.tokenCache audienceType with
  | some token =>
    if OAuthProvider.isTokenExpired token cfg.refreshWindow currentTime then
      OAuthProvider.getTokenPersistentStep cfg currentTime
        { st with tokenCache := fun a => if a = audienceType then none else st.tokenCache a }
        audienceType
    else (.fromMemoryCache token.access_token, st)
  | none => OAuthProvider.getTokenPersistentStep cfg currentTime st audienceType

/-- Successful settlement of the in-flight request: the response token is
stored in the persistent cache (if configured) under the selected client id
and the audience captured at request creation, stored in the in-memory cache
under that same audience, the failure bookkeeping is reset, and the gate is
cleared before every awaiting caller is resolved with the access token. -/
def OAuthProvider.settleSuccess (cfg : OAuthProviderConfig) (st : OAuthProviderState)
    (accessToken : String) (decodedExpiry : Int) : OAuthProviderState :=
  match st.inflightAudience with
  | none =>
    { st with failed := false, failureCount := 0,
              inflightTokenRequest := none, inflightAudience := none }
  | some aud =>
    let token : Token := { access_token := accessToken, expiry := decodedExpiry, audience := aud }
    let persistentKey := (OAuthProvider.selectedClientId cfg aud, aud)
    { st with
      tokenCache := fun a => if a = aud then some token else st.tokenCache a,
      persistentCache := st.persistentCache.map
        (fun store => fun k => if k = persistentKey then some token else store k),
      failed := false,
      failureCount := 0,
      inflightTokenRequest := none,
      inflightAudience := none }

/-- Failed settlement of the in-flight request: the failure counter feeding
the linear backoff is incremented, the provider is marked failed, and the
gate is cleared before every awaiting caller is rejected with the error. -/
def OAuthProvider.settleFailure (st : OAuthProviderState) : OAuthProviderState :=
  { st with failureCount := st.failureCount + 1,
            failed := true,
            inflightTokenRequest := none,
            inflightAudience := none }

/-- A sequence of `getToken` calls interleaved with no settlement (callers
arriving while the network response is outstanding). -/
def OAuthProvider.getTokenSeq (cfg : OAuthProviderConfig) (currentTime : Int)
    (st : OAuthProviderState) : List TokenGrantAudienceType →
    List GetTokenOutcome × OAuthProviderState
  | [] => ([], st)
  | a :: as =>
    ((OAuthProvider.getToken cfg currentTime st a).1 ::
        (OAuthProvider.getTokenSeq cfg currentTime
          (OAuthProvider.getToken cfg currentTime st a).2 as).1,
      (OAuthProvider.getTokenSeq cfg currentTime
        (OAuthProvider.getToken cfg currentTime st a).2 as).2)

/-- A concrete provider configuration carrying the environment defaults of
`get-configuration.ts` (Self-Managed endpoint, no Modeler audience set). -/
def sampleOAuthConfig : OAuthProviderConfig :=
  { isCamundaSaaS := false
    clientId := "cid"
    consoleClientId := "ccid"
    camundaModelerOauthAudience := none
    consoleAudience := "api.cloud.camunda.io"
    zeebeAudience := "zeebe.camunda.io"
    operateAudience := "operate.camunda.io"
    optimizeAudience := "optimize.camunda.io"
    tasklistAudience := "tasklist.camunda.io"
    scope := none
    refreshWindow := 1000 }

/-- The state of a freshly constructed provider: empty caches, idle gate. -/
def freshOAuthState : OAuthProviderState :=
  { tokenCache := fun _ => none
    persistentCache := none
    inflightTokenRequest := none
    inflightAudience := none
    failed := false
    failureCount := 0
    networkRequests := 0
    nextRequestId := 0 }

/-!
Specialized class factories (`rest-api-job-class-factory.ts`,
`rest-api-process-instance-class-factory.ts`).  Classes are runtime values
with identity; we model a class reference as a numeric id plus the two
metadata channels that exist at runtime: the TC39 `Symbol.metadata` record
consulted by `getMetadata` of `tc39-metadata-utils.ts` (inherited from
`RestApiJob`, whose decorated fields are declared in `dto/c8-dto.ts`), and
the registry written by `Reflect.defineMetadata` (the reflect-metadata
polyfill's separate store — no module of the repository imports the
polyfill, so at runtime the call would in fact throw
`TypeError: Reflect.defineMetadata is not a function`; the model grants the
factory the charitable reading in which the polyfill is present). -/

/-- A snapshot of a runtime class as relevant to the codec: its identity,
its `Symbol.metadata` record, and what `Reflect.defineMetadata` recorded for
it (field name paired with the id of the registered child class). -/
structure RuntimeClass where
  id : Nat
  tc39Meta : DtoClass
  reflectMeta : List (String × Nat)
deriving Repr

/-- Models `getMetadata` of `tc39-metadata-utils.ts` applied to a runtime
class: only `target[Symbol.metadata]` is consulted; the reflect-metadata
registry is never read. -/
def RuntimeClass.codecMetadata (cls : RuntimeClass) (key : String) : Option Directive :=
  getMetadata cls.tc39Meta key

/-- The `Symbol.metadata` record of `RestApiJob` (`dto/c8-dto.ts`): the five
`@Int64String` fields.  `variables` and `customHeaders` carry no
decorator. -/
def restApiJobMeta : DtoClass :=
  [("key", .int64String), ("processInstanceKey", .int64String),
   ("processDefinitionKey", .int64String), ("elementInstanceKey", .int64String),
   ("deadline", .int64String)]

/-- A property value of the object literal passed to `JSON.stringify` when
the factory computes its cache key: the supplied Dto classes are constructor
functions. -/
inductive JsPropValue where
  | funcRef (classId : Nat)
  | strVal (s : String)
deriving Repr, DecidableEq

/-- Models `JSON.stringify` of an object literal: function-valued properties
are omitted entirely (`JSON.stringify` serializes a function as
`undefined`, and `undefined`-valued properties are dropped). -/
def jsonStringifyObject (props : List (String × JsPropValue)) : String :=
  let parts := props.filterMap (fun kv =>
    match kv.2 with
    | .funcRef _ => none
    | .strVal s => some ("\"" ++ kv.1 ++ "\":\"" ++ s ++ "\""))
  "\x7b" ++ String.intercalate "," parts ++ "\x7d"

/-- The cache key computed by the memoized job-class factory:
`JSON.stringify({inputVariableDto, customHeadersDto})` where both values are
the supplied class constructors. -/
def jobClassCacheKey (inputVariableDto customHeadersDto : Nat) : String :=
  jsonStringifyObject
    [("inputVariableDto", .funcRef inputVariableDto),
     ("customHeadersDto", .funcRef customHeadersDto)]

/-- The memoization cache of one factory closure: cache key to created
class, plus the id supply for fresh classes. -/
structure FactoryState where
  cache : List (String × RuntimeClass)
  nextClassId : Nat

/-- The state of the factory closure created at module load. -/
def initialFactoryState : FactoryState := { cache := [], nextClassId := 0 }

/-- Models the closure returned by
`createMemoizedSpecializedRestApiJobClassFactory`: compute the cache key
from the two supplied classes, return the cached class on a hit, and
otherwise create `class NewRestApiJobClass extends RestApiJob` (inheriting
`RestApiJob`'s `Symbol.metadata`), record the two shapes for `variables` and
`customHeaders` via `Reflect.defineMetadata`, cache and return it. -/
def restApiJobClassFactory (st : FactoryState) (inputVariableDto customHeadersDto : Nat) :
    RuntimeClass × FactoryState :=
  let cacheKey := jobClassCacheKey inputVariableDto customHeadersDto
  match st.cache.find? (fun e => e.1 == cacheKey) with
  | some e => (e.2, st)
  | none =>
    let newClass : RuntimeClass :=
      { id := st.nextClassId,
        tc39Meta := restApiJobMeta,
        reflectMeta := [("variables", inputVariableDto), ("customHeaders", customHeadersDto)] }
    (newClass, { cache := st.cache ++ [(cacheKey, newClass)], nextClassId := st.nextClassId + 1 })

/-- The JSON body of the repository's own test
`source/test/c8rest/parse-jobs.ts` (the activation response whose variables
and custom headers the factory-produced class is expected to decode). -/
def parseJobsTestJson : Json :=
  .obj [("jobs", .arr [.obj
    [("key", .num 2251799813737371),
     ("type", .str "console-log-complete"),
     ("processInstanceKey", .num 2251799813737366),
     ("bpmnProcessId", .str "hello-world-complete"),
     ("processDefinitionVersion", .num 1),
     ("processDefinitionKey", .num 2251799813736299),
     ("elementId", .str "ServiceTask_0g6tf5f"),
     ("elementInstanceKey", .num 2251799813737370),
     ("customHeaders", .obj [("message", .str "Hello World"), ("bigHeader", .num 1),
       ("smallHeader", .num 2)]),
     ("worker", .str "test"),
     ("retries", .num 100),
     ("deadline", .num 1725501895792),
     ("variables", .obj [("bigValue", .num 3)]),
     ("tenantId", .str "<default>")]])]

/-- The `Variables` class of `parse-jobs.ts`: `@Int64String bigValue`. -/
def parseJobsVariablesMeta : DtoClass := [("bigValue", .int64String)]

/-- The `CustomHeaders` class of `parse-jobs.ts`: `@Int64String bigHeader`,
plain `smallHeader`. -/
def parseJobsCustomHeadersMeta : DtoClass := [("bigHeader", .int64String)]

/-- The job-class metadata the claim (and the repository's own test) expects
the factory to register: the envelope metadata extended with
`NestedType(variableShape)` on `variables` and `NestedType(headerShape)` on
`customHeaders`. -/
def claimedJobClassMeta : DtoClass :=
  restApiJobMeta ++
    [("variables", .childDto parseJobsVariablesMeta),
     ("customHeaders", .childDto parseJobsCustomHeadersMeta)]

/-!
Round-trip fixtures (spec section 8, first testable property).  The claimed
data class carries one field under every directive kind: `a` unannotated
(the spec's `PlainNumber`), `b` `@Int64String`, `c` `@Int64StringArray`,
`d` `@BigIntValue`, `e` `@BigIntValueArray`, and `f` `@ChildDto`.
-/

/-- The child class of the round-trip fixture: one `@Int64String` field. -/
def roundTripChildMeta : DtoClass := [("g", .int64String)]

/-- The round-trip class without the `@Int64StringArray` field. -/
def roundTripMeta : DtoClass :=
  [("b", .int64String), ("d", .bigintValue), ("e", .bigintValueArray),
   ("f", .childDto roundTripChildMeta)]

/-- The full round-trip class of the claim, with a field under every
directive kind. -/
def roundTripFullMeta : DtoClass :=
  [("b", .int64String), ("c", .int64StringArray), ("d", .bigintValue),
   ("e", .bigintValueArray), ("f", .childDto roundTripChildMeta)]

/-- An instance of the round-trip class without the `@Int64StringArray`
field: a native number, an int64 string, a bigint, a bigint array and a
nested child instance. -/
def roundTripInstance (na : Int) (sb : String) (nd : Int) (nes : List Int) (sg : String) :
    JsValue :=
  .obj (some roundTripMeta)
    [("a", .num na), ("b", .str sb), ("d", .bigint nd),
     ("e", .arr (nes.map .bigint)),
     ("f", .obj (some roundTripChildMeta) [("g", .str sg)])]

/-- The wire document `losslessStringify` emits for `roundTripInstance`:
every numeric field, including the `@Int64String` and `@BigIntValue` ones,
appears as a bare JSON number. -/
def roundTripWire (na nb nd : Int) (nes : List Int) (ng : Int) : Json :=
  .obj [("a", .num na), ("b", .num nb), ("d", .num nd),
        ("e", .arr (nes.map .num)), ("f", .obj [("g", .num ng)])]

/-- An instance of the full round-trip class, with the `@Int64StringArray`
field `c` populated. -/
def roundTripFullInstance : JsValue :=
  .obj (some roundTripFullMeta)
    [("a", .num 42), ("b", .str "9223372036854775807"),
     ("c", .arr [.str "1", .str "2"]), ("d", .bigint 3),
     ("e", .arr [.bigint 4]),
     ("f", .obj (some roundTripChildMeta) [("g", .str "5")])]

/-!
Theorems.  Basic facts about error propagation first: the `shapeMismatch`
error is constructed only by the `keyToParse` branch of `losslessParse`, so
no recursive parsing step can produce it.
-/

theorem wrapUnsafe_noShape (k : String) (r : Except ParseError JsValue)
    (hr : ∀ e0, r = .error e0 → e0.isShapeMismatch = false) :
    ∀ e, wrapUnsafe k r = .error e → e.isShapeMismatch = false := by
  intro e h
  match r with
  | .ok v => simp [wrapUnsafe] at h
  | .error (.unsafeNumber p l) =>
    simp [wrapUnsafe] at h
    subst h
    rfl
  | .error (.shapeMismatch k' env) => exact absurd (hr _ rfl) (by simp [ParseError.isShapeMismatch])
  | .error (.typeMismatch m) =>
    simp [wrapUnsafe] at h
    subst h
    rfl

theorem toSafeNumberOrThrow_noShape (n : Int) :
    ∀ e, toSafeNumberOrThrow n = .error e → e.isShapeMismatch = false := by
  intro e h
  unfold toSafeNumberOrThrow at h
  split at h
  · cases h
  · cases h
    rfl

theorem exceptMap_eq_error {α β ε : Type} {f : α → β} {x : Except ε α} {e : ε}
    (h : x.map f = .error e) : x = .error e := by
  cases x <;> simp_all [Except.map]

theorem exceptBind_eq_error {α β ε : Type} {x : Except ε α} {f : α → Except ε β} {e : ε}
    (h : (x >>= f) = .error e) : x = .error e ∨ ∃ a, x = .ok a ∧ f a = .error e := by
  cases x <;> simp_all [Bind.bind, Except.bind]

theorem exceptPure_ne_error {α ε : Type} {a : α} {e : ε}
    (h : (pure a : Except ε α) = .error e) : False := by
  simp [pure, Except.pure] at h

mutual
theorem convertLossless_noShape (v : JsValue) :
    ∀ e, convertLosslessNumbersToNumberOrThrow v = .error e → e.isShapeMismatch = false := by
  intro e h
  match v with
  | .lossless n => exact toSafeNumberOrThrow_noShape n e h
  | .arr xs => exact convertIndexedElems_noShape 0 xs e (exceptMap_eq_error h)
  | .obj m fs => exact convertObjectFields_noShape fs e (exceptMap_eq_error h)
  | .null => exact Except.noConfusion h
  | .bool b => exact Except.noConfusion h
  | .str s => exact Except.noConfusion h
  | .num n => exact Except.noConfusion h
  | .bigint n => exact Except.noConfusion h

theorem convertIndexedElems_noShape (i : Nat) (vs : List JsValue) :
    ∀ e, convertIndexedElems i vs = .error e → e.isShapeMismatch = false := by
  intro e h
  match vs with
  | [] => exact Except.noConfusion h
  | v :: vs' =>
    replace h : (wrapUnsafe (toString i) (convertValueAtKey v) >>= fun v' =>
      convertIndexedElems (i + 1) vs' >>= fun vs'' => pure (v' :: vs'')) = .error e := h
    rcases exceptBind_eq_error h with h1 | ⟨a, _, h2⟩
    · exact wrapUnsafe_noShape _ _ (fun e0 h0 => convertValueAtKey_noShape v e0 h0) e h1
    · rcases exceptBind_eq_error h2 with h3 | ⟨b, _, h4⟩
      · exact convertIndexedElems_noShape (i + 1) vs' e h3
      · exact absurd h4 (fun hc => exceptPure_ne_error hc)

theorem convertObjectFields_noShape (fs : List (String × JsValue)) :
    ∀ e, convertObjectFields fs = .error e → e.isShapeMismatch = false := by
  intro e h
  match fs with
  | [] => exact Except.noConfusion h
  | (k, v) :: fs' =>
    replace h : (wrapUnsafe k (convertValueAtKey v) >>= fun v' =>
      convertObjectFields fs' >>= fun fs'' => pure ((k, v') :: fs'')) = .error e := h
    rcases exceptBind_eq_error h with h1 | ⟨a, _, h2⟩
    · exact wrapUnsafe_noShape _ _ (fun e0 h0 => convertValueAtKey_noShape v e0 h0) e h1
    · rcases exceptBind_eq_error h2 with h3 | ⟨b, _, h4⟩
      · exact convertObjectFields_noShape fs' e h3
      · exact absurd h4 (fun hc => exceptPure_ne_error hc)

theorem convertValueAtKey_noShape (v : JsValue) :
    ∀ e, convertValueAtKey v = .error e → e.isShapeMismatch = false := by
  intro e h
  match v with
  | .arr ys => exact convertFullList_noShape ys e (exceptMap_eq_error h)
  | .lossless n => exact toSafeNumberOrThrow_noShape n e h
  | .obj m fs => exact convertObjectFields_noShape fs e (exceptMap_eq_error h)
  | .null => exact Except.noConfusion h
  | .bool b => exact Except.noConfusion h
  | .str s => exact Except.noConfusion h
  | .num n => exact Except.noConfusion h
  | .bigint n => exact Except.noConfusion h

theorem convertFullList_noShape (vs : List JsValue) :
    ∀ e, convertFullList vs = .error e → e.isShapeMismatch = false := by
  intro e h
  match vs with
  | [] => exact Except.noConfusion h
  | v :: vs' =>
    replace h : (convertLosslessNumbersToNumberOrThrow v >>= fun v' =>
      convertFullList vs' >>= fun vs'' => pure (v' :: vs'')) = .error e := h
    rcases exceptBind_eq_error h with h1 | ⟨a, _, h2⟩
    · exact convertLossless_noShape v e h1
    · rcases exceptBind_eq_error h2 with h3 | ⟨b, _, h4⟩
      · exact convertFullList_noShape vs' e h3
      · exact absurd h4 (fun hc => exceptPure_ne_error hc)
end

theorem error_case_noShape {β : Type} {m e : ParseError}
    (h : (Except.error m : Except ParseError β) = .error e)
    (hm : m.isShapeMismatch = false) : e.isShapeMismatch = false := by
  cases h
  exact hm

theorem int64StringArrayElems_noShape (key : String) :
    ∀ (xs : List Json) (e : ParseError), int64StringArrayElems key xs = .error e →
      e.isShapeMismatch = false := by
  intro xs
  induction xs with
  | nil => intro e h; exact Except.noConfusion h
  | cons x xs ih =>
    intro e h
    cases x with
    | num n =>
      replace h : (int64StringArrayElems key xs >>= fun vs =>
        pure (JsValue.str (toString n) :: vs)) = .error e := h
      rcases exceptBind_eq_error h with h1 | ⟨a, _, h2⟩
      · exact ih e h1
      · exact (exceptPure_ne_error h2).elim
    | null => exact error_case_noShape h rfl
    | bool b => exact error_case_noShape h rfl
    | str s => exact error_case_noShape h rfl
    | arr ys => exact error_case_noShape h rfl
    | obj gs => exact error_case_noShape h rfl

theorem bigintValueArrayElems_noShape (key : String) :
    ∀ (xs : List Json) (e : ParseError), bigintValueArrayElems key xs = .error e →
      e.isShapeMismatch = false := by
  intro xs
  induction xs with
  | nil => intro e h; exact Except.noConfusion h
  | cons x xs ih =>
    intro e h
    cases x with
    | num n =>
      replace h : (bigintValueArrayElems key xs >>= fun vs =>
        pure (JsValue.bigint n :: vs)) = .error e := h
      rcases exceptBind_eq_error h with h1 | ⟨a, _, h2⟩
      · exact ih e h1
      · exact (exceptPure_ne_error h2).elim
    | null => exact error_case_noShape h rfl
    | bool b => exact error_case_noShape h rfl
    | str s => exact error_case_noShape h rfl
    | arr ys => exact error_case_noShape h rfl
    | obj gs => exact error_case_noShape h rfl

theorem ite_noShape {α : Type} {c : Prop} [Decidable c] {x y : Except ParseError α}
    {e : ParseError} (h : (if c then x else y) = .error e)
    (hx : ∀ e0, x = .error e0 → e0.isShapeMismatch = false)
    (hy : ∀ e0, y = .error e0 → e0.isShapeMismatch = false) : e.isShapeMismatch = false := by
  split at h
  · exact hx e h
  · exact hy e h

theorem bind1_pure_noShape {α γ : Type} (y : Except ParseError α) (k : α → γ) (e : ParseError)
    (h : (y >>= fun b => pure (k b)) = .error e)
    (hy : ∀ e0, y = .error e0 → e0.isShapeMismatch = false) : e.isShapeMismatch = false := by
  rcases exceptBind_eq_error h with h1 | ⟨a, _, h2⟩
  · exact hy e h1
  · exact (exceptPure_ne_error h2).elim

theorem bind2_pure_noShape {α β γ : Type} (x : Except ParseError α) (y : Except ParseError β)
    (k : α → β → γ) (e : ParseError)
    (h : (x >>= fun a => y >>= fun b => pure (k a b)) = .error e)
    (hx : ∀ e0, x = .error e0 → e0.isShapeMismatch = false)
    (hy : ∀ e0, y = .error e0 → e0.isShapeMismatch = false) : e.isShapeMismatch = false := by
  rcases exceptBind_eq_error h with h1 | ⟨a, _, h2⟩
  · exact hx e h1
  · rcases exceptBind_eq_error h2 with h3 | ⟨b, _, h4⟩
    · exact hy e h3
    · exact (exceptPure_ne_error h4).elim

mutual
theorem losslessParseCore_noShape (j : Json) (dto : Option DtoClass) :
    ∀ e, losslessParseCore j dto = .error e → e.isShapeMismatch = false := by
  intro e h
  match j, dto with
  | .arr xs, none =>
    exact parseArrayWithAnnotations_noShape xs [] e (exceptMap_eq_error h)
  | .arr xs, some d =>
    exact parseArrayWithAnnotations_noShape xs d e (exceptMap_eq_error h)
  | .null, none => exact convertLossless_noShape _ e h
  | .bool b, none => exact convertLossless_noShape _ e h
  | .str s, none => exact convertLossless_noShape _ e h
  | .num n, none => exact convertLossless_noShape _ e h
  | .obj fs, none => exact convertLossless_noShape _ e h
  | .obj fs, some d =>
    replace h : (parseWithAnnotations fs d >>= fun fields =>
      convertLosslessNumbersToNumberOrThrow (.obj (some d) fields)) = .error e := h
    rcases exceptBind_eq_error h with h1 | ⟨a, _, h2⟩
    · exact parseWithAnnotations_noShape fs d e h1
    · exact convertLossless_noShape _ e h2
  | .null, some d => exact convertLossless_noShape _ e h
  | .bool b, some d => exact convertLossless_noShape _ e h
  | .str s, some d => exact convertLossless_noShape _ e h
  | .num n, some d => exact convertLossless_noShape _ e h

theorem parseArrayWithAnnotations_noShape (xs : List Json) (d : DtoClass) :
    ∀ e, parseArrayWithAnnotations xs d = .error e → e.isShapeMismatch = false := by
  intro e h
  match xs with
  | [] => exact Except.noConfusion h
  | x :: xs' =>
    exact bind2_pure_noShape _ _ _ e h (losslessParseCore_noShape x (some d))
      (parseArrayWithAnnotations_noShape xs' d)

theorem parseWithAnnotations_noShape (fs : List (String × Json)) (d : DtoClass) :
    ∀ e, parseWithAnnotations fs d = .error e → e.isShapeMismatch = false := by
  intro e h
  match fs with
  | [] => exact Except.noConfusion h
  | (key, value) :: rest =>
    cases value <;>
      (simp only [parseWithAnnotations] at h;
       cases hm : getMetadata d key with
       | none =>
         rw [hm] at h
         exact bind1_pure_noShape _ _ e h (parseWithAnnotations_noShape rest d)
       | some dir =>
         cases dir <;> rw [hm] at h <;>
           first
           | exact error_case_noShape h rfl
           | exact bind1_pure_noShape _ _ e h (parseWithAnnotations_noShape rest d)
           | exact bind2_pure_noShape _ _ _ e h (parseArrayWithAnnotations_noShape _ _)
               (parseWithAnnotations_noShape rest d)
           | exact bind2_pure_noShape _ _ _ e h (losslessParseCore_noShape _ _)
               (parseWithAnnotations_noShape rest d)
           | exact bind2_pure_noShape _ _ _ e h (int64StringArrayElems_noShape _ _)
               (parseWithAnnotations_noShape rest d)
           | exact bind2_pure_noShape _ _ _ e h (bigintValueArrayElems_noShape _ _)
               (parseWithAnnotations_noShape rest d)
           | exact ite_noShape h (fun e0 h0 => error_case_noShape h0 rfl)
               (parseWithAnnotations_noShape rest d))
end

/-- C5: Unsafe-number fail-loud.  A field annotated `Int64AsString` parses
the literal to its exact decimal string; a field with no directive is
coerced to a native number exactly when the value is safely representable
and otherwise parsing throws the `UnsafeNumber` error naming the field and
the original literal; in particular `9223372036854775807` yields the exact
string under the annotation and throws without it. -/
theorem C5_unsafe_number_fail_loud :
    ∀ n : Int,
      (losslessParse (.obj [("field", .num n)]) (some [("field", .int64String)]) none
        = .ok (.obj (some [("field", .int64String)]) [("field", .str (toString n))])) ∧
      (losslessParse (.obj [("field", .num n)]) (some []) none
        = if isSafeInteger n = true then .ok (.obj (some []) [("field", .num n)])
          else .error (.unsafeNumber ["field"] (toString n))) ∧
      (losslessParse (.obj [("field", .num 9223372036854775807)])
          (some [("field", .int64String)]) none
        = .ok (.obj (some [("field", .int64String)]) [("field", .str "9223372036854775807")])) ∧
      (losslessParse (.obj [("field", .num 9223372036854775807)]) (some []) none
        = .error (.unsafeNumber ["field"] "9223372036854775807")) := by
  intro n
  refine ⟨rfl, ?_, rfl, rfl⟩
  have h1 : losslessParse (.obj [("field", .num n)]) (some []) none
      = (wrapUnsafe "field" (toSafeNumberOrThrow n) >>= fun v' =>
          pure [("field", v')]).map (JsValue.obj (some [])) := rfl
  by_cases hs : isSafeInteger n = true
  · have hts : toSafeNumberOrThrow n = .ok (.num n) := by
      rw [toSafeNumberOrThrow, if_pos hs]
    rw [h1, hts, if_pos hs]
    rfl
  · have hts : toSafeNumberOrThrow n = .error (.unsafeNumber [] (toString n)) := by
      rw [toSafeNumberOrThrow, if_neg hs]
    rw [h1, hts, if_neg hs]
    rfl

/-- C6 (counterexample): the claim says parsing with an `arrayKey` fails
with `ShapeMismatch` exactly when the key is absent; but the source tests
`if (parsedLossless[keyToParse])` — truthiness, not presence — so an
envelope that does contain the key with a JSON-falsy value (`null` here)
still raises `ShapeMismatch`. -/
theorem C6_array_key_counterexample :
    jsGet [("jobs", Json.null)] "jobs" = some .null ∧
    losslessParse (.obj [("jobs", .null)]) none (some "jobs")
      = .error (.shapeMismatch "jobs" (.obj [("jobs", .null)])) :=
  ⟨rfl, rfl⟩

/-- C6 (amended): given an `arrayKey`, a present truthy value is recursed
into (the `jobs` example yields the one-element array), and parsing fails
with the `ShapeMismatch` error reporting the full envelope exactly when the
key is absent from the envelope or its value is JSON-falsy (`null`, `false`
or the empty string); a numeric value is a `LosslessNumber` instance, hence
an object, hence truthy, so `0` under the key parses successfully. -/
theorem C6_array_key_amended :
    (losslessParse (.obj [("jobs", .arr [.obj [("key", .num 1)]])]) none (some "jobs")
      = .ok (.arr [.obj (some []) [("key", .num 1)]])) ∧
    (losslessParse (.obj [("other", .arr [])]) none (some "jobs")
      = .error (.shapeMismatch "jobs" (.obj [("other", .arr [])]))) ∧
    (losslessParse (.obj [("jobs", .num 0)]) none (some "jobs") = .ok (.num 0)) ∧
    (∀ (fields : List (String × Json)) (dto : Option DtoClass) (k : String),
      losslessParse (.obj fields) dto (some k) = .error (.shapeMismatch k (.obj fields)) ↔
        ∀ v, jsGet fields k = some v → v.truthy = false) := by
  refine ⟨rfl, rfl, rfl, ?_⟩
  intro fields dto k
  constructor
  · intro h v hv
    by_contra htr
    replace htr : v.truthy = true := by revert htr; cases v.truthy <;> simp
    rw [losslessParse] at h
    rw [hv] at h
    replace h : (if v.truthy = true then losslessParseCore v dto
        else .error (.shapeMismatch k (.obj fields)))
        = Except.error (.shapeMismatch k (.obj fields)) := h
    rw [if_pos htr] at h
    have := losslessParseCore_noShape v dto _ h
    simp [ParseError.isShapeMismatch] at this
  · intro hfalsy
    rw [losslessParse]
    cases hv : jsGet fields k with
    | none => rfl
    | some v =>
      show (if v.truthy = true then losslessParseCore v dto
        else .error (.shapeMismatch k (.obj fields)))
        = Except.error (.shapeMismatch k (.obj fields))
      rw [if_neg]
      simp [hfalsy v hv]

/-- C3: the factory's cache key is `JSON.stringify` of an object whose two
properties are the supplied class constructors; `JSON.stringify` drops
function-valued properties, so every call computes the same key and the
factory returns the very first class it created for every pair of shapes —
calling with two distinct shape definitions does not return two distinct
class references, contradicting the memoization comment in the source. -/
theorem C3_factory_memoization_bug :
    ((restApiJobClassFactory initialFactoryState 10 11).1.id =
      (restApiJobClassFactory (restApiJobClassFactory initialFactoryState 10 11).2 20 21).1.id) ∧
    (∀ inputVariableDto customHeadersDto : Nat,
      jobClassCacheKey inputVariableDto customHeadersDto = "\x7b\x7d") :=
  ⟨rfl, fun _ _ => rfl⟩

/-- C4: the class returned by the job-class factory registers the supplied
variable and header shapes only through `Reflect.defineMetadata`, a registry
the codec's `getMetadata` (which reads `Symbol.metadata`) never consults —
and the reflect-metadata polyfill is not even imported by the repository.
Parsing the repository's own `parse-jobs.ts` fixture with the returned
class therefore leaves `variables` and `customHeaders` undecoded
(`bigValue` comes back as the number `3`), while the registration the claim
and the test expect (`NestedType` on both fields) would produce the string
`"3"`. -/
theorem C4_factory_registration_bug :
    ((restApiJobClassFactory initialFactoryState 10 11).1.codecMetadata "variables" = none) ∧
    ((restApiJobClassFactory initialFactoryState 10 11).1.codecMetadata "customHeaders" = none) ∧
    ((restApiJobClassFactory initialFactoryState 10 11).1.reflectMeta
      = [("variables", 10), ("customHeaders", 11)]) ∧
    (losslessParse parseJobsTestJson
        (some (restApiJobClassFactory initialFactoryState 10 11).1.tc39Meta) (some "jobs")
      = .ok (.arr [.obj (some restApiJobMeta)
          [("key", .str "2251799813737371"),
           ("type", .str "console-log-complete"),
           ("processInstanceKey", .str "2251799813737366"),
           ("bpmnProcessId", .str "hello-world-complete"),
           ("processDefinitionVersion", .num 1),
           ("processDefinitionKey", .str "2251799813736299"),
           ("elementId", .str "ServiceTask_0g6tf5f"),
           ("elementInstanceKey", .str "2251799813737370"),
           ("customHeaders", .obj none [("message", .str "Hello World"),
             ("bigHeader", .num 1), ("smallHeader", .num 2)]),
           ("worker", .str "test"),
           ("retries", .num 100),
           ("deadline", .str "1725501895792"),
           ("variables", .obj none [("bigValue", .num 3)]),
           ("tenantId", .str "<default>")]])) ∧
    (losslessParse parseJobsTestJson (some claimedJobClassMeta) (some "jobs")
      = .ok (.arr [.obj (some claimedJobClassMeta)
          [("key", .str "2251799813737371"),
           ("type", .str "console-log-complete"),
           ("processInstanceKey", .str "2251799813737366"),
           ("bpmnProcessId", .str "hello-world-complete"),
           ("processDefinitionVersion", .num 1),
           ("processDefinitionKey", .str "2251799813736299"),
           ("elementId", .str "ServiceTask_0g6tf5f"),
           ("elementInstanceKey", .str "2251799813737370"),
           ("customHeaders", .obj (some parseJobsCustomHeadersMeta)
             [("message", .str "Hello World"), ("bigHeader", .str "1"),
              ("smallHeader", .num 2)]),
           ("worker", .str "test"),
           ("retries", .num 100),
           ("deadline", .str "1725501895792"),
           ("variables", .obj (some parseJobsVariablesMeta) [("bigValue", .str "3")]),
           ("tenantId", .str "<default>")]])) :=
  ⟨rfl, rfl, rfl, rfl, rfl⟩

/-- C8: Job handler failure absorption.  Every `handleJob` invocation
decrements the active count exactly once, as its final action; a handler
that throws or rejects causes exactly one `job.fail` call carrying the
stringified error and `retries - 1`; a successful handler causes none. -/
theorem C8_handler_failure_absorption :
    ∀ (jobRetries : Int) (handlerResult : HandlerOutcome) (failResult : FailJobOutcome)
      (e : String),
      ((CamundaJobWorker.handleJob jobRetries handlerResult failResult).1.count
        .decrementActiveJobCount = 1) ∧
      ((CamundaJobWorker.handleJob jobRetries handlerResult failResult).1.getLast?
        = some .decrementActiveJobCount) ∧
      (WorkerAction.callJobFail e (jobRetries - 1) ∈
        (CamundaJobWorker.handleJob jobRetries (.throws e) failResult).1) ∧
      ((CamundaJobWorker.handleJob jobRetries .success failResult).1.filter
        (fun a => a.isFailCall) = []) := by
  intro r h f e
  refine ⟨?_, ?_, ?_, ?_⟩
  · cases h <;> cases f <;> rfl
  · cases h <;> cases f <;> rfl
  · cases f <;> simp [CamundaJobWorker.handleJob]
  · cases f <;> rfl

theorem sum_eraseIdx_get? :
    ∀ (l : List Nat) (i r : Nat), l.get? i = some r → (l.eraseIdx i).sum + r = l.sum := by
  intro l
  induction l with
  | nil => intro i r h; exact Option.noConfusion h
  | cons a l ih =>
    intro i r h
    cases i with
    | zero =>
      cases h
      simp [List.eraseIdx]
      omega
    | succ j =>
      have hj : l.get? j = some r := h
      have := ih j r hj
      simp [List.eraseIdx]
      omega

theorem workerStep_inv (maxJobs : Nat) (s s' : WorkerState) (e : WorkerEvent)
    (hc : s.currentlyActiveJobCount = (s.unsettledJobs : Int))
    (hb : s.unsettledJobs + s.pendingActivations.sum ≤ maxJobs)
    (hstep : workerStep maxJobs s e = some s')
    (hlen : s'.pendingActivations.length ≤ 1) :
    s'.currentlyActiveJobCount = (s'.unsettledJobs : Int) ∧
      s'.unsettledJobs + s'.pendingActivations.sum ≤ maxJobs := by
  cases e with
  | pollTick =>
    rw [workerStep] at hstep
    split at hstep
    · cases hstep
      exact ⟨hc, hb⟩
    · cases hstep
      rename_i hlt
      simp only [List.length_append, List.length_cons, List.length_nil] at hlen
      have hnil : s.pendingActivations = [] := by
        cases hp : s.pendingActivations with
        | nil => rfl
        | cons x xs => rw [hp] at hlen; simp at hlen
      refine ⟨hc, ?_⟩
      simp only [hnil, List.nil_append, List.sum_cons, List.sum_nil]
      rw [hc] at hlt
      have huns : s.unsettledJobs < maxJobs := by exact_mod_cast lt_of_not_ge hlt
      have : ((maxJobs : Int) - s.currentlyActiveJobCount).toNat
          = maxJobs - s.unsettledJobs := by
        rw [hc]
        omega
      rw [this]
      omega
  | activationSuccess i k =>
    rw [workerStep] at hstep
    split at hstep
    · rename_i req hget
      split at hstep
      · rename_i hk
        cases hstep
        have hsum := sum_eraseIdx_get? s.pendingActivations i req hget
        constructor
        · simp only []
          rw [hc]
          push_cast
          ring
        · simp only []
          omega
      · exact Option.noConfusion hstep
    · exact Option.noConfusion hstep
  | activationFailure i =>
    rw [workerStep] at hstep
    split at hstep
    · rename_i req hget
      cases hstep
      have hsum := sum_eraseIdx_get? s.pendingActivations i req hget
      exact ⟨hc, by simp only []; omega⟩
    · exact Option.noConfusion hstep
  | handlerSettled =>
    rw [workerStep] at hstep
    split at hstep
    · exact Option.noConfusion hstep
    · rename_i hpos
      cases hstep
      constructor
      · simp only []
        rw [hc]
        omega
      · simp only []
        omega

theorem atMostOneInflightActivation_head (maxJobs : Nat) (s : WorkerState)
    (evs : List WorkerEvent) (h : atMostOneInflightActivation maxJobs s evs = true) :
    s.pendingActivations.length ≤ 1 := by
  cases evs with
  | nil =>
    rw [atMostOneInflightActivation] at h
    exact of_decide_eq_true h
  | cons e evs =>
    rw [atMostOneInflightActivation, Bool.and_eq_true] at h
    exact of_decide_eq_true h.1

theorem runWorker_inv (maxJobs : Nat) :
    ∀ (evs : List WorkerEvent) (s : WorkerState),
      s.currentlyActiveJobCount = (s.unsettledJobs : Int) →
      s.unsettledJobs + s.pendingActivations.sum ≤ maxJobs →
      atMostOneInflightActivation maxJobs s evs = true →
      ∀ s', runWorker maxJobs s evs = some s' →
        s'.currentlyActiveJobCount = (s'.unsettledJobs : Int) ∧
          s'.unsettledJobs + s'.pendingActivations.sum ≤ maxJobs := by
  intro evs
  induction evs with
  | nil =>
    intro s hc hb _ s' hrun
    cases hrun
    exact ⟨hc, hb⟩
  | cons e evs ih =>
    intro s hc hb hchk s' hrun
    rw [runWorker] at hrun
    rw [atMostOneInflightActivation, Bool.and_eq_true] at hchk
    obtain ⟨_, h2⟩ := hchk
    cases hstep : workerStep maxJobs s e with
    | none => rw [hstep] at hrun; exact Option.noConfusion hrun
    | some s1 =>
      rw [hstep] at hrun h2
      have hlen1 : s1.pendingActivations.length ≤ 1 :=
        atMostOneInflightActivation_head maxJobs s1 evs h2
      have ⟨hc1, hb1⟩ := workerStep_inv maxJobs s s1 e hc hb hstep hlen1
      exact ih s1 hc1 hb1 h2 s' hrun

/-- C2 (counterexample): with `maxJobsToActivate = 1`, two poll ticks firing
while the first activation response is still in flight both see
`currentlyActiveJobCount = 0` and both issue an activation request for one
job; when both responses return one job each, the counter reaches 2 — above
the configured capacity. -/
theorem C2_capacity_counterexample :
    runWorker 1 initialWorkerState
        [.pollTick, .pollTick, .activationSuccess 0 1, .activationSuccess 0 1]
      = some { currentlyActiveJobCount := 2, unsettledJobs := 2, pendingActivations := [] } ∧
    ¬((2 : Int) ≤ (1 : Int)) :=
  ⟨rfl, by decide⟩

/-- C2 (amended): provided at most one activation request is ever in flight
— every activation response or failure arrives before the next poll tick —
`currentlyActiveJobCount` stays within `[0, maxJobsToActivate]` and always
equals the number of dispatched-but-unsettled jobs (it is incremented only
by a successful activation batch and decremented exactly once per job
handled).  Without that serialization the bound can be exceeded
(`C2_capacity_counterexample`). -/
theorem C2_capacity_amended (maxJobs : Nat) (evs : List WorkerEvent) (s' : WorkerState)
    (hchk : atMostOneInflightActivation maxJobs initialWorkerState evs = true)
    (hrun : runWorker maxJobs initialWorkerState evs = some s') :
    0 ≤ s'.currentlyActiveJobCount ∧ s'.currentlyActiveJobCount ≤ (maxJobs : Int) ∧
      s'.currentlyActiveJobCount = (s'.unsettledJobs : Int) := by
  have ⟨hc, hb⟩ := runWorker_inv maxJobs evs initialWorkerState rfl (by simp [initialWorkerState]) hchk s' hrun
  refine ⟨?_, ?_, hc⟩
  · rw [hc]
    positivity
  · rw [hc]
    have : s'.unsettledJobs ≤ maxJobs := by omega
    exact_mod_cast this

/-- C2 witness: a serialized poll-activate-settle cycle at capacity 2 ends
with the counter back at zero, within bounds. -/
theorem C2_capacity_amended_witness :
    0 ≤ ({ currentlyActiveJobCount := 0, unsettledJobs := 0, pendingActivations := [] }
        : WorkerState).currentlyActiveJobCount ∧
    ({ currentlyActiveJobCount := 0, unsettledJobs := 0, pendingActivations := [] }
        : WorkerState).currentlyActiveJobCount ≤ ((2 : Nat) : Int) ∧
    ({ currentlyActiveJobCount := 0, unsettledJobs := 0, pendingActivations := [] }
        : WorkerState).currentlyActiveJobCount
      = ((({ currentlyActiveJobCount := 0, unsettledJobs := 0, pendingActivations := [] }
        : WorkerState).unsettledJobs : Nat) : Int) :=
  C2_capacity_amended 2 [.pollTick, .activationSuccess 0 1, .handlerSettled]
    { currentlyActiveJobCount := 0, unsettledJobs := 0, pendingActivations := [] }
    (by decide) rfl

theorem audienceFragment_ne_empty (s : String) : "audience=" ++ s ++ "&" ≠ "" := by
  intro h
  have h2 := congrArg String.length h
  simp only [String.length_append] at h2
  have h3 : "audience=".length = 9 := rfl
  have h4 : "&".length = 1 := rfl
  have h5 : "".length = 0 := rfl
  omega

/-- C9 (counterexample): a `CONSOLE` audience request with nothing
explicitly configured does not omit the audience parameter: the
`CAMUNDA_CONSOLE_OAUTH_AUDIENCE` environment default `api.cloud.camunda.io`
flows through the final `audience=...&` branch of `addAudienceIfNeeded`.
Only the Self-Managed `MODELER` case omits the parameter. -/
theorem C9_audience_counterexample :
    OAuthProvider.addAudienceIfNeeded sampleOAuthConfig .CONSOLE
      = "audience=api.cloud.camunda.io&" ∧
    ("audience=api.cloud.camunda.io&" : String) ≠ "" :=
  ⟨rfl, audienceFragment_ne_empty "api.cloud.camunda.io"⟩

/-- C9 (amended): the audience parameter is omitted from the token-request
body exactly for a `MODELER` audience on Self-Managed with no configured
Modeler audience; a `MODELER` audience on Camunda SaaS always uses the
fixed `api.cloud.camunda.io`; every other audience — including `CONSOLE` —
always sends `audience=<its configured per-audience string>&`. -/
theorem C9_audience_amended :
    ∀ (cfg : OAuthProviderConfig) (aud : TokenGrantAudienceType),
      (OAuthProvider.addAudienceIfNeeded cfg aud = "" ↔
        (aud = .MODELER ∧ cfg.isCamundaSaaS = false ∧
          cfg.camundaModelerOauthAudience = none)) ∧
      (cfg.isCamundaSaaS = true →
        OAuthProvider.addAudienceIfNeeded cfg .MODELER = "audience=api.cloud.camunda.io&") ∧
      (aud ≠ .MODELER →
        OAuthProvider.addAudienceIfNeeded cfg aud
          = "audience=" ++ OAuthProvider.getAudience cfg aud ++ "&") ∧
      (∀ clientIdToUse clientSecretToUse, cfg.scope = none →
        OAuthProvider.tokenRequestBody cfg aud clientIdToUse clientSecretToUse
          = OAuthProvider.addAudienceIfNeeded cfg aud ++
            ("client_id=" ++ clientIdToUse ++ "&client_secret=" ++ clientSecretToUse ++
              "&grant_type=client_credentials")) := by
  intro cfg aud
  refine ⟨?_, ?_, ?_, ?_⟩
  · constructor
    · intro h
      by_contra hcon
      rw [OAuthProvider.addAudienceIfNeeded] at h
      split at h
      · rename_i hcond
        simp only [Bool.and_eq_true, decide_eq_true_eq, Bool.not_eq_true',
          Option.isNone_iff_eq_none] at hcond
        exact hcon ⟨hcond.1.1, hcond.1.2, hcond.2⟩
      · split at h
        · exact absurd h (by decide)
        · exact audienceFragment_ne_empty _ h
    · intro ⟨h1, h2, h3⟩
      rw [OAuthProvider.addAudienceIfNeeded, if_pos]
      simp [h1, h2, h3]
  · intro hsaas
    rw [OAuthProvider.addAudienceIfNeeded]
    rw [if_neg, if_pos]
    · simp [hsaas]
    · simp [hsaas]
  · intro hne
    rw [OAuthProvider.addAudienceIfNeeded]
    rw [if_neg, if_neg]
    · simp [hne]
    · simp [hne]
  · intro ci cs hscope
    rw [OAuthProvider.tokenRequestBody, hscope]
    simp [String.append_assoc]

theorem getToken_joined (cfg : OAuthProviderConfig) (now : Int) (st : OAuthProviderState)
    (aud : TokenGrantAudienceType) (r : Nat)
    (hmem : st.tokenCache aud = none)
    (hpers : st.persistentCache = none)
    (hin : st.inflightTokenRequest = some r) :
    OAuthProvider.getToken cfg now st aud = (.awaitingRequest r, st) := by
  rw [OAuthProvider.getToken, hmem]
  show OAuthProvider.getTokenPersistentStep cfg now st aud = (.awaitingRequest r, st)
  rw [OAuthProvider.getTokenPersistentStep, hpers]
  show OAuthProvider.joinOrCreateInflight st aud = (.awaitingRequest r, st)
  rw [OAuthProvider.joinOrCreateInflight, hin]

theorem getToken_creates (cfg : OAuthProviderConfig) (now : Int) (st : OAuthProviderState)
    (aud : TokenGrantAudienceType)
    (hmem : st.tokenCache aud = none)
    (hpers : st.persistentCache = none)
    (hin : st.inflightTokenRequest = none) :
    OAuthProvider.getToken cfg now st aud = (.awaitingRequest st.nextRequestId,
      { st with inflightTokenRequest := some st.nextRequestId,
                inflightAudience := some aud,
                networkRequests := st.networkRequests + 1,
                nextRequestId := st.nextRequestId + 1 }) := by
  rw [OAuthProvider.getToken, hmem]
  show OAuthProvider.getTokenPersistentStep cfg now st aud = _
  rw [OAuthProvider.getTokenPersistentStep, hpers]
  show OAuthProvider.joinOrCreateInflight st aud = _
  rw [OAuthProvider.joinOrCreateInflight, hin, hpers]

theorem getTokenSeq_joined (cfg : OAuthProviderConfig) (now : Int) :
    ∀ (auds : List TokenGrantAudienceType) (st : OAuthProviderState) (r : Nat),
      (∀ a, st.tokenCache a = none) →
      st.persistentCache = none →
      st.inflightTokenRequest = some r →
      OAuthProvider.getTokenSeq cfg now st auds
        = (auds.map (fun _ => .awaitingRequest r), st) := by
  intro auds
  induction auds with
  | nil => intro st r _ _ _; rfl
  | cons a as ih =>
    intro st r hfresh hpers hin
    rw [OAuthProvider.getTokenSeq]
    rw [getToken_joined cfg now st a r (hfresh a) hpers hin]
    simp only [ih st r hfresh hpers hin]
    rfl

/-- C7: the OAuth in-flight request gate.  From an idle provider with no
cached tokens, any non-empty burst of `getToken` calls arriving before the
network response issues exactly one token-endpoint request, every caller
awaits that same request (so all resolve to the same token string when it
settles), and settlement — success or failure — clears the gate
unconditionally. -/
theorem C7_token_gate (cfg : OAuthProviderConfig) (now : Int) (st : OAuthProviderState)
    (auds : List TokenGrantAudienceType)
    (hfresh : ∀ a, st.tokenCache a = none)
    (hpers : st.persistentCache = none)
    (hidle : st.inflightTokenRequest = none)
    (hne : auds ≠ []) :
    ((OAuthProvider.getTokenSeq cfg now st auds).2.networkRequests
      = st.networkRequests + 1) ∧
    (∀ o ∈ (OAuthProvider.getTokenSeq cfg now st auds).1,
      o = .awaitingRequest st.nextRequestId) ∧
    (∀ (st1 : OAuthProviderState) (tok : String) (exp : Int),
      (OAuthProvider.settleSuccess cfg st1 tok exp).inflightTokenRequest = none ∧
      (OAuthProvider.settleFailure st1).inflightTokenRequest = none) := by
  have hsettle : ∀ (st1 : OAuthProviderState) (tok : String) (exp : Int),
      (OAuthProvider.settleSuccess cfg st1 tok exp).inflightTokenRequest = none ∧
      (OAuthProvider.settleFailure st1).inflightTokenRequest = none := by
    intro st1 tok exp
    refine ⟨?_, rfl⟩
    rw [OAuthProvider.settleSuccess]
    cases st1.inflightAudience <;> rfl
  cases auds with
  | nil => exact absurd rfl hne
  | cons a as =>
    have hseq : OAuthProvider.getTokenSeq cfg now st (a :: as)
        = (.awaitingRequest st.nextRequestId ::
            as.map (fun _ => .awaitingRequest st.nextRequestId),
          { st with inflightTokenRequest := some st.nextRequestId,
                    inflightAudience := some a,
                    networkRequests := st.networkRequests + 1,
                    nextRequestId := st.nextRequestId + 1 }) := by
      rw [OAuthProvider.getTokenSeq]
      rw [getToken_creates cfg now st a (hfresh a) hpers hidle]
      simp only [getTokenSeq_joined cfg now as
        { st with inflightTokenRequest := some st.nextRequestId,
                  inflightAudience := some a,
                  networkRequests := st.networkRequests + 1,
                  nextRequestId := st.nextRequestId + 1 }
        st.nextRequestId (fun x => hfresh x) hpers rfl]
    rw [hseq]
    refine ⟨rfl, ?_, hsettle⟩
    intro o ho
    simp only [List.mem_cons, List.mem_map] at ho
    rcases ho with rfl | ⟨x, _, rfl⟩ <;> rfl

/-- C7 witness: three concurrent callers on a fresh provider share one
request. -/
theorem C7_token_gate_witness :
    ((OAuthProvider.getTokenSeq sampleOAuthConfig 0 freshOAuthState
        [.ZEEBE, .OPERATE, .ZEEBE]).2.networkRequests
      = freshOAuthState.networkRequests + 1) ∧
    (∀ o ∈ (OAuthProvider.getTokenSeq sampleOAuthConfig 0 freshOAuthState
        [.ZEEBE, .OPERATE, .ZEEBE]).1,
      o = .awaitingRequest freshOAuthState.nextRequestId) ∧
    (∀ (st1 : OAuthProviderState) (tok : String) (exp : Int),
      (OAuthProvider.settleSuccess sampleOAuthConfig st1 tok exp).inflightTokenRequest
        = none ∧
      (OAuthProvider.settleFailure st1).inflightTokenRequest = none) :=
  C7_token_gate sampleOAuthConfig 0 freshOAuthState [.ZEEBE, .OPERATE, .ZEEBE]
    (fun _ => rfl) rfl rfl (by simp)

/-- C10: cross-audience in-flight coupling.  While a token request created
by `getToken(A)` is in flight, a `getToken(B)` call for a different
audience with no valid cached token for `B` joins `A`'s shared request (so
it resolves with `A`'s access token, or rejects with `A`'s error), issues
no network request of its own, and — after the settlement, which caches
only under the audience captured at request creation — leaves nothing
cached under `B`'s key in either cache. -/
theorem C10_cross_audience_coupling (cfg : OAuthProviderConfig) (now : Int)
    (st : OAuthProviderState) (A B : TokenGrantAudienceType) (r : Nat)
    (tok : String) (exp : Int)
    (hin : st.inflightTokenRequest = some r)
    (haud : st.inflightAudience = some A)
    (hAB : A ≠ B)
    (hmem : ∀ t, st.tokenCache B = some t →
      OAuthProvider.isTokenExpired t cfg.refreshWindow now = true)
    (hpers : st.persistentCache = none) :
    ((OAuthProvider.getToken cfg now st B).1 = .awaitingRequest r) ∧
    ((OAuthProvider.getToken cfg now st B).2.networkRequests = st.networkRequests) ∧
    ((OAuthProvider.settleSuccess cfg (OAuthProvider.getToken cfg now st B).2 tok
        exp).tokenCache B = none) ∧
    ((OAuthProvider.settleSuccess cfg (OAuthProvider.getToken cfg now st B).2 tok
        exp).persistentCache = none) := by
  have hBA : ¬(B = A) := fun h => hAB h.symm
  cases hB : st.tokenCache B with
  | none =>
    have hget : OAuthProvider.getToken cfg now st B = (.awaitingRequest r, st) :=
      getToken_joined cfg now st B r hB hpers hin
    rw [hget]
    refine ⟨rfl, rfl, ?_, ?_⟩
    · rw [OAuthProvider.settleSuccess, haud]
      simp only [if_neg hBA]
      exact hB
    · rw [OAuthProvider.settleSuccess, haud]
      simp only [hpers, Option.map_none']
  | some t =>
    have hexp := hmem t hB
    have hget : OAuthProvider.getToken cfg now st B
        = (.awaitingRequest r,
          { st with tokenCache := fun a => if a = B then none else st.tokenCache a }) := by
      rw [OAuthProvider.getToken, hB]
      show (if OAuthProvider.isTokenExpired t cfg.refreshWindow now = true then
          OAuthProvider.getTokenPersistentStep cfg now
            { st with tokenCache := fun a => if a = B then none else st.tokenCache a } B
        else (GetTokenOutcome.fromMemoryCache t.access_token, st)) = _
      rw [if_pos hexp]
      simp only [OAuthProvider.getTokenPersistentStep, OAuthProvider.joinOrCreateInflight,
        hpers, hin]
    rw [hget]
    refine ⟨rfl, rfl, ?_, ?_⟩
    · rw [OAuthProvider.settleSuccess, haud]
      simp only [if_neg hBA]
      simp
    · rw [OAuthProvider.settleSuccess, haud]
      simp only [hpers, Option.map_none']

/-- C10 witness: a `getToken(OPERATE)` call while a `ZEEBE`-created request
is in flight joins that request and caches nothing under `OPERATE`. -/
theorem C10_cross_audience_coupling_witness :
    ((OAuthProvider.getToken sampleOAuthConfig 0
        { freshOAuthState with inflightTokenRequest := some 0,
                               inflightAudience := some .ZEEBE,
                               networkRequests := 1, nextRequestId := 1 }
        .OPERATE).1 = .awaitingRequest 0) ∧
    ((OAuthProvider.getToken sampleOAuthConfig 0
        { freshOAuthState with inflightTokenRequest := some 0,
                               inflightAudience := some .ZEEBE,
                               networkRequests := 1, nextRequestId := 1 }
        .OPERATE).2.networkRequests
      = ({ freshOAuthState with inflightTokenRequest := some 0,
                                inflightAudience := some .ZEEBE,
                                networkRequests := 1, nextRequestId := 1 }
          : OAuthProviderState).networkRequests) ∧
    ((OAuthProvider.settleSuccess sampleOAuthConfig
        (OAuthProvider.getToken sampleOAuthConfig 0
          { freshOAuthState with inflightTokenRequest := some 0,
                                 inflightAudience := some .ZEEBE,
                                 networkRequests := 1, nextRequestId := 1 }
          .OPERATE).2 "tok" 12345).tokenCache .OPERATE = none) ∧
    ((OAuthProvider.settleSuccess sampleOAuthConfig
        (OAuthProvider.getToken sampleOAuthConfig 0
          { freshOAuthState with inflightTokenRequest := some 0,
                                 inflightAudience := some .ZEEBE,
                                 networkRequests := 1, nextRequestId := 1 }
          .OPERATE).2 "tok" 12345).persistentCache = none) :=
  C10_cross_audience_coupling sampleOAuthConfig 0
    { freshOAuthState with inflightTokenRequest := some 0,
                           inflightAudience := some .ZEEBE,
                           networkRequests := 1, nextRequestId := 1 }
    .ZEEBE .OPERATE 0 "tok" 12345 rfl rfl (by decide)
    (fun t ht => Option.noConfusion ht) rfl

theorem stringifyElems_map_bigint :
    ∀ ns : List Int, stringifyElems (ns.map .bigint) = .ok (ns.map .num) := by
  intro ns
  induction ns with
  | nil => rfl
  | cons n ns ih =>
    show (stringifyFieldValue none (.bigint n) >>= fun v' =>
      stringifyElems (ns.map .bigint) >>= fun vs' => pure (v' :: vs')) = _
    rw [ih]
    rfl

theorem bigintValueArrayElems_map_num (key : String) :
    ∀ ns : List Int, bigintValueArrayElems key (ns.map .num) = .ok (ns.map .bigint) := by
  intro ns
  induction ns with
  | nil => rfl
  | cons n ns ih =>
    show (bigintValueArrayElems key (ns.map .num) >>= fun vs =>
      pure (JsValue.bigint n :: vs)) = _
    rw [ih]
    rfl

theorem convertFullList_map_bigint :
    ∀ ns : List Int, convertFullList (ns.map .bigint) = .ok (ns.map .bigint) := by
  intro ns
  induction ns with
  | nil => rfl
  | cons n ns ih =>
    show (convertLosslessNumbersToNumberOrThrow (.bigint n) >>= fun v' =>
      convertFullList (ns.map .bigint) >>= fun vs' => pure (v' :: vs')) = _
    rw [ih]
    rfl

/-- C1 (counterexample): an instance with a field under every directive
kind does not survive the round trip.  The `@Int64StringArray` field `c` is
an array, so `losslessStringify` recurses into it structurally before
consulting the directive and emits an array of quoted JSON strings; parsing
that wire form back under the same class then throws the `Unexpected type`
error, instead of returning the instance. -/
theorem C1_roundtrip_counterexample :
    losslessStringify roundTripFullInstance = .ok (.obj
      [("a", .num 42), ("b", .num 9223372036854775807), ("c", .arr [.str "1", .str "2"]),
       ("d", .num 3), ("e", .arr [.num 4]), ("f", .obj [("g", .num 5)])]) ∧
    losslessParse (.obj
      [("a", .num 42), ("b", .num 9223372036854775807), ("c", .arr [.str "1", .str "2"]),
       ("d", .num 3), ("e", .arr [.num 4]), ("f", .obj [("g", .num 5)])])
      (some roundTripFullMeta) none
      = .error (.typeMismatch
          "Unexpected type: Received JSON string value for Int64String Dto field \"c\", expected number") ∧
    losslessParse (.obj
      [("a", .num 42), ("b", .num 9223372036854775807), ("c", .arr [.str "1", .str "2"]),
       ("d", .num 3), ("e", .arr [.num 4]), ("f", .obj [("g", .num 5)])])
      (some roundTripFullMeta) none
      ≠ .ok roundTripFullInstance := by
  refine ⟨rfl, rfl, ?_⟩
  intro hcon
  rw [show losslessParse (.obj
      [("a", .num 42), ("b", .num 9223372036854775807), ("c", .arr [.str "1", .str "2"]),
       ("d", .num 3), ("e", .arr [.num 4]), ("f", .obj [("g", .num 5)])])
      (some roundTripFullMeta) none
      = .error (.typeMismatch
          "Unexpected type: Received JSON string value for Int64String Dto field \"c\", expected number")
    from rfl] at hcon
  exact Except.noConfusion hcon

theorem convertObjectFields_nil : convertObjectFields [] = .ok [] := rfl

theorem convertObjectFields_cons (k : String) (v : JsValue)
    (fs : List (String × JsValue)) :
    convertObjectFields ((k, v) :: fs)
      = (wrapUnsafe k (convertValueAtKey v)).bind (fun v1 =>
          (convertObjectFields fs).bind (fun fs1 => .ok ((k, v1) :: fs1))) := rfl

theorem convertLossless_obj (m : Option DtoClass) (fs : List (String × JsValue)) :
    convertLosslessNumbersToNumberOrThrow (.obj m fs)
      = (convertObjectFields fs).map (.obj m) := rfl

theorem except_bind_ok {α β ε : Type} (a : α) (f : α → Except ε β) :
    Except.bind (.ok a) f = f a := rfl

theorem except_map_ok {α β ε : Type} (f : α → β) (a : α) :
    Except.map (ε := ε) f (.ok a) = .ok (f a) := rfl

theorem convertValueAtKey_str (s : String) :
    convertValueAtKey (.str s) = .ok (.str s) := rfl

theorem convertValueAtKey_bigint (n : Int) :
    convertValueAtKey (.bigint n) = .ok (.bigint n) := rfl

theorem convertValueAtKey_lossless (n : Int) :
    convertValueAtKey (.lossless n) = toSafeNumberOrThrow n := rfl

theorem convertValueAtKey_obj (m : Option DtoClass) (fs : List (String × JsValue)) :
    convertValueAtKey (.obj m fs) = (convertObjectFields fs).map (.obj m) := rfl

theorem convertValueAtKey_arr (ys : List JsValue) :
    convertValueAtKey (.arr ys) = (convertFullList ys).map .arr := rfl

theorem wrapUnsafe_ok (k : String) (v : JsValue) :
    wrapUnsafe k (.ok v) = .ok v := rfl

/-- C1 (amended): for instances whose fields range over the directive kinds
`PlainNumber`, `Int64AsString`, `BigIntValue`, `BigIntValueArray` and
`NestedType`, the round trip is the identity, with the `Int64AsString` and
`BigIntValue` fields emitted on the wire as bare JSON integers.  The
remaining kind, `Int64AsStringArray`, is excluded: its wire form is an
array of quoted strings whose re-parse throws
(`C1_roundtrip_counterexample`). -/
theorem C1_roundtrip_amended (na : Int) (sb : String) (nb : Int) (nd : Int)
    (nes : List Int) (sg : String) (ng : Int)
    (hsafe : isSafeInteger na = true)
    (hb : parseIntLit sb = some nb) (hb2 : toString nb = sb)
    (hg : parseIntLit sg = some ng) (hg2 : toString ng = sg) :
    losslessStringify (roundTripInstance na sb nd nes sg)
      = .ok (roundTripWire na nb nd nes ng) ∧
    losslessParse (roundTripWire na nb nd nes ng) (some roundTripMeta) none
      = .ok (roundTripInstance na sb nd nes sg) := by
  subst hb2
  subst hg2
  have hta : toSafeNumberOrThrow na = .ok (.num na) := by
    rw [toSafeNumberOrThrow, if_pos hsafe]
  constructor
  · simp only [losslessStringify, roundTripInstance, roundTripWire, stringifyFields,
      stringifyFieldValue, getMetadata, roundTripMeta, roundTripChildMeta, Option.bind,
      List.find?, losslessNumberOfValue, losslessNumberOfToString, stringifyLeaf,
      hb, hg, stringifyElems_map_bigint, Except.map, bind, Except.bind, pure, Except.pure]
    simp
  · simp only [losslessParse, losslessParseCore, roundTripInstance, roundTripWire,
      parseWithAnnotations, getMetadata, roundTripMeta, roundTripChildMeta, List.find?,
      Json.truthy, Json.toJs, bigintValueArrayElems_map_num,
      convertLossless_obj, convertObjectFields_cons, convertObjectFields_nil,
      convertValueAtKey_str, convertValueAtKey_bigint, convertValueAtKey_lossless,
      convertValueAtKey_obj, convertValueAtKey_arr, wrapUnsafe_ok,
      convertFullList_map_bigint, hta, except_bind_ok, except_map_ok,
      bind, Except.bind, pure, Except.pure]
    simp [convertLossless_obj, convertObjectFields_cons, convertObjectFields_nil,
      convertValueAtKey_str, convertValueAtKey_bigint, convertValueAtKey_lossless,
      convertValueAtKey_obj, convertValueAtKey_arr, wrapUnsafe_ok,
      convertFullList_map_bigint, hta, except_bind_ok, except_map_ok]

/-- Witness for `C1_roundtrip_amended` at a concrete instance: the safe plain
number `42`, the max-int64 string `"9223372036854775807"`, bigint `3`,
bigint array `[4, 5]` and nested int64 string `"-6"`. -/
theorem C1_roundtrip_amended_witness :
    losslessStringify (roundTripInstance 42 "9223372036854775807" 3 [4, 5] "-6")
      = .ok (roundTripWire 42 9223372036854775807 3 [4, 5] (-6)) ∧
    losslessParse (roundTripWire 42 9223372036854775807 3 [4, 5] (-6))
        (some roundTripMeta) none
      = .ok (roundTripInstance 42 "9223372036854775807" 3 [4, 5] "-6") :=
  C1_roundtrip_amended 42 "9223372036854775807" 9223372036854775807 3 [4, 5] "-6"
    (-6) (by decide) (by decide) (by decide) (by decide) (by decide)
